import Mathlib

/-!
# CoolerDash update pipeline — verification of the spec's claims

Shallow embedding of the CoolerDash source (`src/display.c`,
`src/coolercontrol.c`, `src/main.c`).  C `float` values are modelled as
exact rationals (`ℚ`), C `int` as `ℤ`/`Nat`, C strings as `List Char`,
and the HTTP layer as explicit response values passed to the functions
that would perform the requests.  Global mutable state (the change
gate's `last_data`/`first_run` statics, the session flag, the cached
device UID) is threaded explicitly.
-/

namespace CoolerDash

/-- RGB colour triple (0-255 each), mirroring the C `Color` struct of
`config.h`. -/
structure Color where
  r : Int
  g : Int
  b : Int
  deriving DecidableEq, Repr

/-- Mirror of `sensor_data_t` as consumed by `should_update_display` in
`display.c`: the seven tracked fields (two temperatures would suffice for
the default mode, but the gate compares all seven). -/
structure SensorData where
  cpu_temp : ℚ
  gpu_temp : ℚ
  coolant_temp : ℚ
  cpu_usage : ℚ
  ram_usage : ℚ
  gpu_usage : ℚ
  gpu_ram_usage : ℚ
  deriving DecidableEq, Repr

/-- The change gate's private static state in `should_update_display`
(`display.c`): the last stored snapshot and the `first_run` flag. -/
structure GateState where
  last_data : SensorData
  first_run : Bool
  deriving DecidableEq, Repr

/-- The sentinel initial value of `last_data` (every field −1). -/
def initLastData : SensorData := ⟨-1, -1, -1, -1, -1, -1, -1⟩

/-- Initial gate state: sentinel snapshot, `first_run = 1`. -/
def initGateState : GateState := ⟨initLastData, true⟩

/-- `fabsf`, written out so that the kernel can evaluate it on rational
literals. -/
def rabs (q : ℚ) : ℚ := if q < 0 then -q else q

@[simp] theorem rabs_eq_abs (q : ℚ) : rabs q = |q| := by
  unfold rabs
  split
  · next h => exact (abs_of_neg h).symm
  · next h => exact (abs_of_nonneg (not_lt.mp h)).symm

/-- The disjunction of the seven `fabsf(... ) > tolerance` comparisons in
`should_update_display` (`display.c`, lines 431-437).  `tolT` models the
`CHANGE_TOLERANCE_TEMP` macro, `tolU` the `CHANGE_TOLERANCE_USAGE` macro
(their numeric values are configuration, not fixed by the sources). -/
def significantChange (tolT tolU : ℚ) (d last : SensorData) : Bool :=
  decide (rabs (d.cpu_temp - last.cpu_temp) > tolT) ||
  decide (rabs (d.gpu_temp - last.gpu_temp) > tolT) ||
  decide (rabs (d.coolant_temp - last.coolant_temp) > tolT) ||
  decide (rabs (d.cpu_usage - last.cpu_usage) > tolU) ||
  decide (rabs (d.gpu_usage - last.gpu_usage) > tolU) ||
  decide (rabs (d.ram_usage - last.ram_usage) > tolU) ||
  decide (rabs (d.gpu_ram_usage - last.gpu_ram_usage) > tolU)

/-- `should_update_display` (`display.c`, lines 419-444), with the static
state passed and returned explicitly.  Returns the C function's `int`
result as a `Bool` together with the new static state. -/
def should_update_display (tolT tolU : ℚ) (d : SensorData) (s : GateState) :
    Bool × GateState :=
  if s.first_run then (true, ⟨d, false⟩)
  else if significantChange tolT tolU d s.last_data then (true, { s with last_data := d })
  else (false, s)

/-- Threshold and colour configuration consumed by `lerp_temp_color`.
In the shipped sources these are the `TEMP_THRESHOLD_*` / `COLOR_*`
macros (whose values are not defined in the given tree), so they are
modelled as parameters. -/
structure GradientConfig where
  temp_threshold_green : ℚ
  temp_threshold_orange : ℚ
  temp_threshold_red : ℚ
  color_green : Color
  color_orange : Color
  color_hot_orange : Color
  color_red : Color
  deriving DecidableEq, Repr

/-- `lerp_temp_color` (`display.c`, lines 41-51): a four-way threshold
step function over the temperature value. -/
def lerp_temp_color (cfg : GradientConfig) (val : ℚ) : Color :=
  if val ≤ cfg.temp_threshold_green then cfg.color_green
  else if val ≤ cfg.temp_threshold_orange then cfg.color_orange
  else if val ≤ cfg.temp_threshold_red then cfg.color_hot_orange
  else cfg.color_red

/-- C cast of a rational to `int`: truncation toward zero. -/
def cTrunc (q : ℚ) : ℤ := if 0 ≤ q then ⌊q⌋ else -⌊-q⌋

/-- The raw foreground width of a temperature bar:
`(temp > 0.0f) ? (int)((temp / 100.0f) * BAR_WIDTH) : 0`
(`draw_temperature_bars`, `display.c` lines 156-157 and 174-175). -/
def val_w (barW : ℤ) (temp : ℚ) : ℤ :=
  if 0 < temp then cTrunc (temp / 100 * barW) else 0

/-- The clamped foreground width:
`(v < 0) ? 0 : (v > BAR_WIDTH) ? BAR_WIDTH : v`
(`draw_temperature_bars`, `display.c` lines 158-159 and 176-177). -/
def safe_val_w (barW : ℤ) (temp : ℚ) : ℤ :=
  if val_w barW temp < 0 then 0
  else if barW < val_w barW temp then barW
  else val_w barW temp

theorem cTrunc_of_nonneg {q : ℚ} (h : 0 ≤ q) : cTrunc q = ⌊q⌋ := by
  simp [cTrunc, h]

theorem cTrunc_nonpos {q : ℚ} (h : q ≤ 0) : cTrunc q ≤ 0 := by
  unfold cTrunc
  split
  · exact Int.floor_nonpos h
  · have : (0 : ℚ) ≤ -q := by linarith
    have := Int.floor_nonneg.mpr this
    omega

theorem cTrunc_nonneg {q : ℚ} (h : 0 ≤ q) : 0 ≤ cTrunc q := by
  rw [cTrunc_of_nonneg h]
  exact Int.floor_nonneg.mpr h

/-! ## C1 and C5: the change gate -/

/-- C1 (counterexample): with temperature tolerance 2, a second snapshot
whose CPU temperature differs from the stored one by exactly the
tolerance is rejected by `should_update_display` — the boundary is
exclusive, refuting the claim's inclusive (`≥`) boundary. -/
theorem gate_inclusive_boundary_cex :
    |(52 : ℚ) - 50| = 2 ∧
    (should_update_display 2 5 ⟨52, 40, 30, 10, 10, 10, 10⟩
      (should_update_display 2 5 ⟨50, 40, 30, 10, 10, 10, 10⟩ initGateState).2).1 = false := by
  constructor
  · norm_num
  · norm_num [should_update_display, initGateState, initLastData, significantChange, rabs]

/-- C1 (amended): on every call after the first, `should_update_display`
returns true iff some tracked field's absolute delta strictly exceeds its
tolerance (temperature fields against the temperature tolerance, usage
fields against the usage tolerance); a delta equal to the tolerance does
not trigger an update. -/
theorem gate_strict_tolerance_iff (tolT tolU : ℚ) (d : SensorData) (s : GateState)
    (h : s.first_run = false) :
    (should_update_display tolT tolU d s).1 = true ↔
      (tolT < |d.cpu_temp - s.last_data.cpu_temp| ∨
       tolT < |d.gpu_temp - s.last_data.gpu_temp| ∨
       tolT < |d.coolant_temp - s.last_data.coolant_temp| ∨
       tolU < |d.cpu_usage - s.last_data.cpu_usage| ∨
       tolU < |d.gpu_usage - s.last_data.gpu_usage| ∨
       tolU < |d.ram_usage - s.last_data.ram_usage| ∨
       tolU < |d.gpu_ram_usage - s.last_data.gpu_ram_usage|) := by
  simp only [should_update_display, h, Bool.false_eq_true, if_false]
  split
  · next hsc =>
    simp only [significantChange, Bool.or_eq_true, decide_eq_true_eq, gt_iff_lt,
      rabs_eq_abs] at hsc
    simp only [true_iff]
    tauto
  · next hsc =>
    simp only [significantChange, Bool.or_eq_true, decide_eq_true_eq, gt_iff_lt,
      rabs_eq_abs] at hsc
    push_neg at hsc
    simp only [Bool.false_eq_true, false_iff]
    push_neg
    tauto

/-- C1 witness: a concrete non-first-call state on which the amended
iff holds (CPU delta 3 strictly exceeds tolerance 2). -/
theorem gate_strict_tolerance_iff_witness :
    (should_update_display 2 5 ⟨53, 40, 30, 10, 10, 10, 10⟩
        ⟨⟨50, 40, 30, 10, 10, 10, 10⟩, false⟩).1 = true ↔
      ((2 : ℚ) < |(53 : ℚ) - 50| ∨ (2 : ℚ) < |(40 : ℚ) - 40| ∨
       (2 : ℚ) < |(30 : ℚ) - 30| ∨ (5 : ℚ) < |(10 : ℚ) - 10| ∨
       (5 : ℚ) < |(10 : ℚ) - 10| ∨ (5 : ℚ) < |(10 : ℚ) - 10| ∨
       (5 : ℚ) < |(10 : ℚ) - 10|) :=
  gate_strict_tolerance_iff 2 5 ⟨53, 40, 30, 10, 10, 10, 10⟩
    ⟨⟨50, 40, 30, 10, 10, 10, 10⟩, false⟩ rfl

/-- C5: on every call after the first, when the gate rejects (returns
false) the stored snapshot is left unchanged, and in particular a
snapshot identical to the stored one is rejected without any state
change (given nonnegative tolerances). -/
theorem gate_reject_preserves_state (tolT tolU : ℚ) (d : SensorData) (s : GateState)
    (h : s.first_run = false) (htT : 0 ≤ tolT) (htU : 0 ≤ tolU) :
    ((should_update_display tolT tolU d s).1 = false →
      (should_update_display tolT tolU d s).2 = s) ∧
    should_update_display tolT tolU s.last_data s = (false, s) := by
  have hself : significantChange tolT tolU s.last_data s.last_data = false := by
    simp only [significantChange, sub_self, abs_zero, gt_iff_lt, Bool.or_eq_false_iff,
      decide_eq_false_iff_not, not_lt]
    exact ⟨⟨⟨⟨⟨⟨htT, htT⟩, htT⟩, htU⟩, htU⟩, htU⟩, htU⟩
  constructor
  · intro hfalse
    simp only [should_update_display, h, Bool.false_eq_true, if_false] at hfalse ⊢
    split at hfalse
    · simp at hfalse
    · split
      · next hsc => simp_all
      · rfl
  · simp [should_update_display, h, hself]

/-- C5 witness: concrete rejection instance (identical snapshot, state
preserved). -/
theorem gate_reject_preserves_state_witness :
    ((should_update_display 2 5 ⟨50, 40, 30, 10, 10, 10, 10⟩
        ⟨⟨50, 40, 30, 10, 10, 10, 10⟩, false⟩).1 = false →
      (should_update_display 2 5 ⟨50, 40, 30, 10, 10, 10, 10⟩
        ⟨⟨50, 40, 30, 10, 10, 10, 10⟩, false⟩).2 = ⟨⟨50, 40, 30, 10, 10, 10, 10⟩, false⟩) ∧
    should_update_display 2 5 ⟨50, 40, 30, 10, 10, 10, 10⟩
        ⟨⟨50, 40, 30, 10, 10, 10, 10⟩, false⟩ =
      (false, ⟨⟨50, 40, 30, 10, 10, 10, 10⟩, false⟩) :=
  gate_reject_preserves_state 2 5 ⟨50, 40, 30, 10, 10, 10, 10⟩
    ⟨⟨50, 40, 30, 10, 10, 10, 10⟩, false⟩ rfl (by norm_num) (by norm_num)

/-! ## C4: the colour gradient -/

/-- C4: for ordered thresholds, `lerp_temp_color` is the four-bucket step
function with inclusive upper boundaries: `t ≤ green` picks the green
colour, `green < t ≤ orange` the orange colour, `orange < t ≤ red` the
hot-orange colour, and `red < t` the red colour. -/
theorem lerp_temp_color_buckets (cfg : GradientConfig) (t : ℚ)
    (h1 : cfg.temp_threshold_green ≤ cfg.temp_threshold_orange)
    (h2 : cfg.temp_threshold_orange ≤ cfg.temp_threshold_red) :
    (t ≤ cfg.temp_threshold_green → lerp_temp_color cfg t = cfg.color_green) ∧
    (cfg.temp_threshold_green < t → t ≤ cfg.temp_threshold_orange →
      lerp_temp_color cfg t = cfg.color_orange) ∧
    (cfg.temp_threshold_orange < t → t ≤ cfg.temp_threshold_red →
      lerp_temp_color cfg t = cfg.color_hot_orange) ∧
    (cfg.temp_threshold_red < t → lerp_temp_color cfg t = cfg.color_red) := by
  refine ⟨fun hg => ?_, fun hg ho => ?_, fun ho hr => ?_, fun hr => ?_⟩ <;>
    unfold lerp_temp_color <;> split_ifs <;> first | rfl | linarith

/-- C4 witness: thresholds (55, 65, 75) at temperature 65 (the exact
orange boundary, belonging to the orange bucket). -/
theorem lerp_temp_color_buckets_witness :
    ((65 : ℚ) ≤ 55 →
      lerp_temp_color ⟨55, 65, 75, ⟨0, 255, 0⟩, ⟨255, 140, 0⟩, ⟨255, 70, 0⟩, ⟨255, 0, 0⟩⟩ 65 =
        ⟨0, 255, 0⟩) ∧
    ((55 : ℚ) < 65 → (65 : ℚ) ≤ 65 →
      lerp_temp_color ⟨55, 65, 75, ⟨0, 255, 0⟩, ⟨255, 140, 0⟩, ⟨255, 70, 0⟩, ⟨255, 0, 0⟩⟩ 65 =
        ⟨255, 140, 0⟩) ∧
    ((65 : ℚ) < 65 → (65 : ℚ) ≤ 75 →
      lerp_temp_color ⟨55, 65, 75, ⟨0, 255, 0⟩, ⟨255, 140, 0⟩, ⟨255, 70, 0⟩, ⟨255, 0, 0⟩⟩ 65 =
        ⟨255, 70, 0⟩) ∧
    ((75 : ℚ) < 65 →
      lerp_temp_color ⟨55, 65, 75, ⟨0, 255, 0⟩, ⟨255, 140, 0⟩, ⟨255, 70, 0⟩, ⟨255, 0, 0⟩⟩ 65 =
        ⟨255, 0, 0⟩) :=
  lerp_temp_color_buckets ⟨55, 65, 75, ⟨0, 255, 0⟩, ⟨255, 140, 0⟩, ⟨255, 70, 0⟩, ⟨255, 0, 0⟩⟩ 65
    (by norm_num) (by norm_num)

/-! ## C6: the bar fill width -/

/-- C6: for a positive bar width, the clamped foreground fill width of a
temperature bar equals the truncated proportional width
`clamp((temp/100)·barW, 0, barW)`: it is 0 for `temp ≤ 0`, `barW` for
`temp ≥ 100`, and always stays within `[0, barW]`. -/
theorem bar_fill_width_clamp (barW : ℤ) (t : ℚ) (hw : 0 < barW) :
    safe_val_w barW t = max 0 (min barW (cTrunc (t / 100 * barW))) ∧
    (t ≤ 0 → safe_val_w barW t = 0) ∧
    (100 ≤ t → safe_val_w barW t = barW) ∧
    0 ≤ safe_val_w barW t ∧ safe_val_w barW t ≤ barW := by
  have hbarQ : (0 : ℚ) < (barW : ℚ) := by exact_mod_cast hw
  refine ⟨?_, ?_, ?_, ?_, ?_⟩
  · by_cases ht : 0 < t
    · have harg : (0 : ℚ) ≤ t / 100 * barW := by positivity
      have h0 : 0 ≤ cTrunc (t / 100 * barW) := cTrunc_nonneg harg
      simp only [safe_val_w, val_w, ht, if_pos]
      split_ifs with hneg hbig
      · omega
      · omega
      · omega
    · have ht' : t ≤ 0 := le_of_not_lt ht
      have harg : t / 100 * barW ≤ 0 := by
        apply mul_nonpos_of_nonpos_of_nonneg
        · linarith
        · exact le_of_lt hbarQ
      have h0 : cTrunc (t / 100 * barW) ≤ 0 := cTrunc_nonpos harg
      simp only [safe_val_w, val_w, ht, if_false]
      norm_num
      omega
  · intro ht
    have ht2 : ¬ (0 : ℚ) < t := not_lt.mpr ht
    simp [safe_val_w, val_w, ht2, hw, le_of_lt hw]
  · intro ht
    have harg : (barW : ℚ) ≤ t / 100 * barW := by
      have h1 : (1 : ℚ) ≤ t / 100 := by linarith
      nlinarith
    have hfloor : barW ≤ ⌊t / 100 * (barW : ℚ)⌋ := Int.le_floor.mpr harg
    have hpos : (0 : ℚ) < t := by linarith
    have hnn : (0 : ℚ) ≤ t / 100 * barW := by positivity
    simp only [safe_val_w, val_w, hpos, if_pos, cTrunc_of_nonneg hnn]
    split_ifs with hneg hbig
    · omega
    · rfl
    · omega
  · unfold safe_val_w
    split_ifs <;> omega
  · unfold safe_val_w
    split_ifs with hneg hbig
    · omega
    · omega
    · unfold val_w at *
      split_ifs at hbig ⊢ with ht
      · omega
      · omega

/-- C6 witness: bar width 230, temperature 72.3 (fill 166 = ⌊0.723·230⌋). -/
theorem bar_fill_width_clamp_witness :
    safe_val_w 230 (723 / 10) = max 0 (min 230 (cTrunc (723 / 10 / 100 * 230))) ∧
    ((723 : ℚ) / 10 ≤ 0 → safe_val_w 230 (723 / 10) = 0) ∧
    ((100 : ℚ) ≤ 723 / 10 → safe_val_w 230 (723 / 10) = 230) ∧
    0 ≤ safe_val_w 230 (723 / 10) ∧ safe_val_w 230 (723 / 10) ≤ 230 :=
  bar_fill_width_clamp 230 (723 / 10) (by norm_num)

/-! ## Session and upload model (`coolercontrol.c`) -/

/-- Outcome of one `curl_easy_perform` call: whether it returned
`CURLE_OK`, and the HTTP response code retrieved afterwards. -/
structure HttpOutcome where
  ok : Bool
  code : Int
  deriving DecidableEq, Repr

/-- The process-wide session globals of `coolercontrol.c`:
whether `curl_handle` is non-NULL, the C flag `session_initialized`
(field `sessionInit` here), and the `cached_device_uid` buffer. -/
structure CCState where
  curlHandle : Bool
  sessionInit : Bool
  cachedDeviceUid : List Char
  deriving DecidableEq, Repr

/-- The state at process start: NULL handle, session flag 0, empty
`cached_device_uid` buffer. -/
def initialCCState : CCState := ⟨false, false, []⟩

/-- `init_coolercontrol_session` (`coolercontrol.c`, lines 137-165):
`curl_easy_init` either fails (NULL handle, return 0) or succeeds; the
login POST succeeds iff `res == CURLE_OK && (code == 200 || code == 204)`,
and only then is `session_initialized` set. -/
def init_coolercontrol_session (handleOk : Bool) (login : HttpOutcome) (st : CCState) :
    Bool × CCState :=
  if !handleOk then (false, { st with curlHandle := false })
  else
    if login.ok && (login.code == 200 || login.code == 204)
    then (true, { st with curlHandle := true, sessionInit := true })
    else (false, { st with curlHandle := true })

/-- `is_session_initialized` (`coolercontrol.c`, lines 318-320). -/
def is_session_live (st : CCState) : Bool := st.sessionInit

/-- `send_image_to_lcd` (`coolercontrol.c`, lines 181-260).  The guard
`(!curl_handle || !image_path || !device_uid || !session_initialized)`
returns 0 before any request; otherwise exactly one multipart PUT is
performed and the result is `res == CURLE_OK && response_code == 200`.
Returns (state afterwards, result, number of HTTP requests issued). -/
def send_image_to_lcd (st : CCState) (imagePath deviceUid : Option (List Char))
    (put : HttpOutcome) : CCState × Bool × Nat :=
  if !st.curlHandle || imagePath.isNone || deviceUid.isNone || !st.sessionInit
  then (st, false, 0)
  else (st, put.ok && put.code == 200, 1)

/-- `upload_image_to_device` (`coolercontrol.c`, lines 274-276): alias
for `send_image_to_lcd`. -/
def upload_image_to_device (st : CCState) (imagePath deviceUid : Option (List Char))
    (put : HttpOutcome) : CCState × Bool × Nat :=
  send_image_to_lcd st imagePath deviceUid put

/-! ## The render/upload pipeline (`display.c`) -/

/-- The per-tick environment of `render_display` /`draw_combined_image`:
whether the cairo surface and context allocations and the PNG write
succeed, and the outcomes of the (up to three) upload requests the tick
can issue. -/
structure RenderEnv where
  surface_ok : Bool
  cr_ok : Bool
  png_ok : Bool
  put1 : HttpOutcome
  put2 : HttpOutcome
  put3 : HttpOutcome
  deriving DecidableEq, Repr

/-- The `IMAGE_PATH` macro.  Its value is configuration (not defined in
the given tree); only its non-NULLness matters here. -/
def IMAGE_PATH : List Char := "image.png".toList

/-- The `KRAKEN_UID` macro used by `display.c` as upload target. -/
def KRAKEN_UID : List Char := "kraken-uid".toList

/-- `render_display` (`display.c`, lines 69-143) with drawing abstracted
away: gate check, surface and context creation, PNG write, then — only
if the write succeeded and a session is live — two unconditional
`send_image_to_lcd` calls whose results are discarded.  Returns
(C result as Bool, new gate state, number of HTTP requests issued). -/
def render_display (tolT tolU : ℚ) (env : RenderEnv) (st : CCState)
    (d : SensorData) (gs : GateState) : Bool × GateState × Nat :=
  match should_update_display tolT tolU d gs with
  | (upd, gs') =>
    if !upd then (true, gs', 0)
    else if !env.surface_ok then (false, gs', 0)
    else if !env.cr_ok then (false, gs', 0)
    else if !env.png_ok then (false, gs', 0)
    else
      let n1 := (send_image_to_lcd st (some IMAGE_PATH) (some KRAKEN_UID) env.put1).2.2
      let n2 := (send_image_to_lcd st (some IMAGE_PATH) (some KRAKEN_UID) env.put2).2.2
      (true, gs', if is_session_live st then n1 + n2 else 0)

/-- `draw_combined_image` (`display.c`, lines 451-501) after sensor
reads: call `render_display`; on failure return silently; on success
issue one further `upload_image_to_device` whose result is discarded.
Returns (new gate state, total HTTP requests issued this tick). -/
def draw_combined_image (tolT tolU : ℚ) (env : RenderEnv) (st : CCState)
    (d : SensorData) (gs : GateState) : GateState × Nat :=
  match render_display tolT tolU env st d gs with
  | (ok, gs', n) =>
    if !ok then (gs', n)
    else
      (gs', n + (upload_image_to_device st (some IMAGE_PATH) (some KRAKEN_UID) env.put3).2.2)

/-! ## C2: upload calls per accepted tick -/

/-- C2 (counterexample): on a tick where the gate accepts, the PNG write
succeeds and a session is live, the pipeline issues three upload
requests (two inside `render_display` plus the extra
`upload_image_to_device` in `draw_combined_image`), not exactly two as
claimed. -/
theorem upload_count_cex :
    (draw_combined_image 2 5 ⟨true, true, true, ⟨true, 200⟩, ⟨false, 500⟩, ⟨true, 200⟩⟩
        ⟨true, true, []⟩ ⟨50, 40, 30, 10, 10, 10, 10⟩ initGateState).2 = 3 ∧
    (3 : Nat) ≠ 2 := by
  constructor
  · simp [draw_combined_image, render_display, should_update_display, initGateState,
      send_image_to_lcd, upload_image_to_device, is_session_live, IMAGE_PATH, KRAKEN_UID]
  · decide

/-- C2 (amended): on every tick where the gate accepts, the allocations
and the PNG write succeed, and the curl handle and session are live, the
pipeline issues exactly three upload requests — the two fixed calls in
`render_display` plus the unconditional `upload_image_to_device` call in
`draw_combined_image` — none of them gated on a previous call's result,
and both the tick's success value and the request count are independent
of every upload outcome. -/
theorem upload_count_three (tolT tolU : ℚ) (env : RenderEnv) (st : CCState)
    (d : SensorData) (gs : GateState)
    (hacc : (should_update_display tolT tolU d gs).1 = true)
    (hsurf : env.surface_ok = true) (hcr : env.cr_ok = true) (hpng : env.png_ok = true)
    (hh : st.curlHandle = true) (hs : st.sessionInit = true) :
    (draw_combined_image tolT tolU env st d gs).2 = 3 ∧
    (render_display tolT tolU env st d gs).1 = true ∧
    (∀ env' : RenderEnv, env'.surface_ok = env.surface_ok → env'.cr_ok = env.cr_ok →
      env'.png_ok = env.png_ok →
      draw_combined_image tolT tolU env' st d gs = draw_combined_image tolT tolU env st d gs) := by
  have hmain : ∀ e : RenderEnv, e.surface_ok = true → e.cr_ok = true → e.png_ok = true →
      draw_combined_image tolT tolU e st d gs =
        ((should_update_display tolT tolU d gs).2, 3) := by
    intro e h1 h2 h3
    simp only [draw_combined_image, render_display, send_image_to_lcd,
      upload_image_to_device, is_session_live, h1, h2, h3, hh, hs, hacc, Bool.not_true,
      Option.isNone_some, Bool.or_self, Bool.or_false, Bool.false_or, Bool.not_false]
    simp [hacc]
  refine ⟨?_, ?_, ?_⟩
  · rw [hmain env hsurf hcr hpng]
  · simp only [render_display, hacc, hsurf, hcr, hpng, Bool.not_true, Bool.not_false]
    simp [hacc]
  · intro env' h1 h2 h3
    rw [hmain env' (h1.trans hsurf) (h2.trans hcr) (h3.trans hpng), hmain env hsurf hcr hpng]

/-- C2 witness: concrete accepted first tick with live session. -/
theorem upload_count_three_witness :
    (draw_combined_image 2 5 ⟨true, true, true, ⟨true, 200⟩, ⟨true, 200⟩, ⟨true, 200⟩⟩
        ⟨true, true, []⟩ ⟨50, 40, 30, 10, 10, 10, 10⟩ initGateState).2 = 3 ∧
    (render_display 2 5 ⟨true, true, true, ⟨true, 200⟩, ⟨true, 200⟩, ⟨true, 200⟩⟩
        ⟨true, true, []⟩ ⟨50, 40, 30, 10, 10, 10, 10⟩ initGateState).1 = true ∧
    (∀ env' : RenderEnv, env'.surface_ok = true → env'.cr_ok = true → env'.png_ok = true →
      draw_combined_image 2 5 env' ⟨true, true, []⟩ ⟨50, 40, 30, 10, 10, 10, 10⟩ initGateState =
        draw_combined_image 2 5 ⟨true, true, true, ⟨true, 200⟩, ⟨true, 200⟩, ⟨true, 200⟩⟩
          ⟨true, true, []⟩ ⟨50, 40, 30, 10, 10, 10, 10⟩ initGateState) :=
  upload_count_three 2 5 ⟨true, true, true, ⟨true, 200⟩, ⟨true, 200⟩, ⟨true, 200⟩⟩
    ⟨true, true, []⟩ ⟨50, 40, 30, 10, 10, 10, 10⟩ initGateState rfl rfl rfl rfl rfl rfl

/-! ## C7: session login -/

/-- C7: starting from a non-initialized session, `init_coolercontrol_session`
succeeds iff the curl handle was created, the login POST completed and the
response code is 200 or 204; and the session flag afterwards equals the
returned success value (Ready exactly on success). -/
theorem session_login_iff (handleOk : Bool) (login : HttpOutcome) (st : CCState)
    (h : st.sessionInit = false) :
    ((init_coolercontrol_session handleOk login st).1 = true ↔
      (handleOk = true ∧ login.ok = true ∧ (login.code = 200 ∨ login.code = 204))) ∧
    ((init_coolercontrol_session handleOk login st).2.sessionInit =
      (init_coolercontrol_session handleOk login st).1) := by
  by_cases hc : login.code = 200 ∨ login.code = 204 <;>
    cases handleOk <;> cases hok : login.ok <;>
    simp [init_coolercontrol_session, h, hok, hc]

/-- C7 witness: handle created, login answered 204 → success and Ready. -/
theorem session_login_iff_witness :
    ((init_coolercontrol_session true ⟨true, 204⟩ initialCCState).1 = true ↔
      (true = true ∧ true = true ∧ ((204 : Int) = 200 ∨ (204 : Int) = 204))) ∧
    ((init_coolercontrol_session true ⟨true, 204⟩ initialCCState).2.sessionInit =
      (init_coolercontrol_session true ⟨true, 204⟩ initialCCState).1) :=
  session_login_iff true ⟨true, 204⟩ initialCCState rfl

/-! ## String-scanning primitives (`strstr` / `strchr` over char lists)

`parse_device_fields` scans the raw response body with `strstr` and
`strchr`; these are their models over `List Char`.  Brace characters are
written through their code points throughout this file. -/

/-- The character U+007B (opening curly brace). -/
def lbrace : Char := Char.ofNat 123

/-- The character U+007D (closing curly brace). -/
def rbrace : Char := Char.ofNat 125

/-- `strstr`: index of the first occurrence of pattern `p` in `s`
(`none` when `p` does not occur). -/
def findSub (p : List Char) : List Char → Option Nat
  | [] => if p.isEmpty then some 0 else none
  | c :: cs => if p.isPrefixOf (c :: cs) then some 0 else (findSub p cs).map (· + 1)

/-- `strchr`: index of the first occurrence of character `c`. -/
def findCh (c : Char) : List Char → Option Nat
  | [] => none
  | d :: ds => if d == c then some 0 else (findCh c ds).map (· + 1)

/-- Does `p` occur somewhere in `s`? -/
def containsSub (p s : List Char) : Bool := (findSub p s).isSome

theorem findSub_nil_eq (p : List Char) :
    findSub p [] = if p.isEmpty then some 0 else none := rfl

theorem findSub_cons_eq (p : List Char) (c : Char) (cs : List Char) :
    findSub p (c :: cs) =
      if p.isPrefixOf (c :: cs) then some 0 else (findSub p cs).map (· + 1) := rfl

theorem findSub_nil_of_ne (p : List Char) (hp : p ≠ []) : findSub p [] = none := by
  rw [findSub_nil_eq, if_neg]
  simpa [List.isEmpty_iff] using hp

theorem findSub_some_iff (p : List Char) (hp : p ≠ []) :
    ∀ (l : List Char) (k : Nat),
      findSub p l = some k ↔
        (p <+: l.drop k ∧ ∀ j, j < k → ¬ p <+: l.drop j) := by
  intro l
  induction l with
  | nil =>
    intro k
    rw [findSub_nil_of_ne p hp]
    constructor
    · intro h; cases h
    · rintro ⟨hpre, -⟩
      rw [List.drop_nil, List.prefix_nil] at hpre
      exact absurd hpre hp
  | cons c cs ih =>
    intro k
    by_cases hpre : p.isPrefixOf (c :: cs) = true
    · have hpre2 : p <+: (c :: cs) := List.isPrefixOf_iff_prefix.mp hpre
      rw [findSub_cons_eq, if_pos hpre]
      constructor
      · intro h
        cases h
        exact ⟨hpre2, by omega⟩
      · rintro ⟨-, hmin⟩
        rcases Nat.eq_zero_or_pos k with hk | hk
        · rw [hk]
        · exact absurd hpre2 (by simpa using hmin 0 hk)
    · have hpre2 : ¬ p <+: (c :: cs) := fun h =>
        hpre ( List.isPrefixOf_iff_prefix.mpr h)
      rw [findSub_cons_eq, if_neg hpre]
      constructor
      · intro h
        rw [Option.map_eq_some'] at h
        obtain ⟨k', hk', rfl⟩ := h
        obtain ⟨h1, h2⟩ := (ih k').mp hk'
        refine ⟨by simpa using h1, ?_⟩
        intro j hj
        cases j with
        | zero => simpa using hpre2
        | succ j' =>
          have := h2 j' (by omega)
          simpa using this
      · rintro ⟨h1, h2⟩
        cases k with
        | zero => exact absurd (by simpa using h1) hpre2
        | succ k' =>
          have hk' : findSub p cs = some k' := by
            apply (ih k').mpr
            refine ⟨by simpa using h1, ?_⟩
            intro j hj
            have := h2 (j + 1) (by omega)
            simpa using this
          rw [hk']
          rfl

theorem findSub_none_iff (p : List Char) (hp : p ≠ []) :
    ∀ l : List Char, findSub p l = none ↔ ∀ j, ¬ p <+: l.drop j := by
  intro l
  induction l with
  | nil =>
    rw [findSub_nil_of_ne p hp]
    constructor
    · intro _ j
      rw [List.drop_nil, List.prefix_nil]
      exact hp
    · intro _
      rfl
  | cons c cs ih =>
    by_cases hpre : p.isPrefixOf (c :: cs) = true
    · have hpre2 : p <+: (c :: cs) := List.isPrefixOf_iff_prefix.mp hpre
      rw [findSub_cons_eq, if_pos hpre]
      constructor
      · intro h; cases h
      · intro h
        exact absurd hpre2 (by simpa using h 0)
    · have hpre2 : ¬ p <+: (c :: cs) := fun h =>
        hpre ( List.isPrefixOf_iff_prefix.mpr h)
      rw [findSub_cons_eq, if_neg hpre, Option.map_eq_none']
      rw [ih]
      constructor
      · intro h j
        cases j with
        | zero => simpa using hpre2
        | succ j' => simpa using h j'
      · intro h j
        have := h (j + 1)
        simpa using this

theorem occurs_drop_bound {p l : List Char} {k : Nat} (hp : p ≠ [])
    (h : p <+: l.drop k) : k + p.length ≤ l.length := by
  have hlen := h.length_le
  rw [List.length_drop] at hlen
  by_cases hk : k ≤ l.length
  · omega
  · exfalso
    have hnil : l.drop k = [] := List.drop_eq_nil_of_le (by omega)
    rw [hnil, List.prefix_nil] at h
    exact hp h

theorem occurs_getElem {p l : List Char} (h : p <+: l) {t : Nat} (ht : t < p.length) :
    l[t]? = p[t]? := by
  rw [ List.prefix_iff_eq_take] at h
  conv_rhs => rw [h]
  rw [List.getElem?_take]
  simp [ht]

/-- Shift lemma for `strstr` over an append: when `p` does not occur in
`X` and `X` does not end with a character of `p`, the first occurrence
in `X ++ R` is the first occurrence in `R`, shifted.  (The last-character
condition rules out occurrences straddling the boundary.) -/
theorem findSub_append_shift (p X R : List Char) (hp : p ≠ [])
    (hno : ∀ j, ¬ p <+: X.drop j)
    (hlast : ∀ h : X ≠ [], X.getLast h ∉ p) :
    findSub p (X ++ R) = (findSub p R).map (· + X.length) := by
  have hkill : ∀ j, j < X.length → ¬ p <+: (X ++ R).drop j := by
    intro j hj hpre
    by_cases hfit : j + p.length ≤ X.length
    · apply hno j
      rw [ List.prefix_iff_eq_take] at hpre ⊢
      have h1 : p.length - (X.drop j).length = 0 := by
        rw [List.length_drop]; omega
      calc p = ((X ++ R).drop j).take p.length := hpre
        _ = (X.drop j ++ R).take p.length := by
              rw [List.drop_append_eq_append_drop, Nat.sub_eq_zero_of_le (le_of_lt hj),
                List.drop_zero]
        _ = (X.drop j).take p.length := by
              rw [List.take_append_eq_append_take, h1, List.take_zero, List.append_nil]
    · have hne : X ≠ [] := by
        intro h; subst h; simp at hj
      apply hlast hne
      have ht : X.length - 1 - j < p.length := by omega
      have h1 : ((X ++ R).drop j)[X.length - 1 - j]? = p[X.length - 1 - j]? :=
        occurs_getElem hpre ht
      rw [List.getElem?_drop] at h1
      have hidx : j + (X.length - 1 - j) = X.length - 1 := by omega
      rw [hidx] at h1
      have h2 : (X ++ R)[X.length - 1]? = X[X.length - 1]? := by
        rw [List.getElem?_append]
        simp only [if_pos (by omega : X.length - 1 < X.length)]
      have h3 : X[X.length - 1]? = some (X.getLast hne) := by
        rw [← List.getLast?_eq_getElem?, List.getLast?_eq_getLast X hne]
      rw [h2, h3] at h1
      have h4 : p[X.length - 1 - j]? = some (X.getLast hne) := h1.symm
      exact List.getElem?_mem h4
  cases hR : findSub p R with
  | none =>
    simp only [Option.map_none']
    rw [findSub_none_iff p hp]
    intro j
    by_cases hj : j < X.length
    · exact hkill j hj
    · rw [List.drop_append_eq_append_drop,
        List.drop_eq_nil_of_le (by omega : X.length ≤ j), List.nil_append]
      exact (findSub_none_iff p hp R).mp hR (j - X.length)
  | some k =>
    simp only [Option.map_some']
    rw [findSub_some_iff p hp]
    obtain ⟨hk1, hk2⟩ := (findSub_some_iff p hp R k).mp hR
    constructor
    · rw [List.drop_append_eq_append_drop,
        List.drop_eq_nil_of_le (by omega : X.length ≤ k + X.length), List.nil_append]
      simpa using hk1
    · intro j hj
      by_cases hjX : j < X.length
      · exact hkill j hjX
      · rw [List.drop_append_eq_append_drop,
          List.drop_eq_nil_of_le (by omega : X.length ≤ j), List.nil_append]
        exact hk2 (j - X.length) (by omega)

/-- Cons version of the shift lemma, for stepping over a separator
character that cannot start an occurrence of `p` (`p` has at least two
characters and does not contain `c`). -/
theorem findSub_cons_shift (p : List Char) (c : Char) (R : List Char)
    (hlen : 2 ≤ p.length) (hc : c ∉ p) :
    findSub p (c :: R) = (findSub p R).map (· + 1) := by
  have hp : p ≠ [] := by
    intro h; subst h; simp at hlen
  have := findSub_append_shift p [c] R hp ?hno ?hlast
  · simpa using this
  case hno =>
    intro j hpre
    have := occurs_drop_bound hp hpre
    simp only [List.length_singleton] at this
    omega
  case hlast =>
    intro h
    simpa using hc

/-- Prefix-truncation: the first occurrence survives taking a prefix
long enough to contain it. -/
theorem findSub_take (p l : List Char) (hp : p ≠ []) {k n : Nat}
    (h : findSub p l = some k) (hn : k + p.length ≤ n) :
    findSub p (l.take n) = some k := by
  obtain ⟨h1, h2⟩ := (findSub_some_iff p hp l k).mp h
  rw [findSub_some_iff p hp]
  constructor
  · rw [ List.prefix_iff_eq_take] at h1 ⊢
    calc p = (l.drop k).take p.length := h1
      _ = ((l.drop k).take (n - k)).take p.length := by
            rw [List.take_take, Nat.min_eq_left (by omega)]
      _ = ((l.take n).drop k).take p.length := by
            rw [List.drop_take]
  · intro j hj hpre
    apply h2 j hj
    have htp : l.take n <+: l := List.take_prefix n l
    exact hpre.trans (htp.drop j)

/-- `strchr` on a clean prefix: the first occurrence of `c` in
`M ++ c :: rest` is at `M.length` when `c` does not appear in `M`. -/
theorem findCh_append (c : Char) (M rest : List Char) (hM : c ∉ M) :
    findCh c (M ++ c :: rest) = some M.length := by
  induction M with
  | nil => simp [findCh]
  | cons d ds ih =>
    have hd : ¬ (d == c) = true := by
      simp only [beq_iff_eq]
      intro h; exact hM (by simp [h])
    have hds : c ∉ ds := fun h => hM (List.mem_cons_of_mem d h)
    rw [List.cons_append,
      show findCh c (d :: (ds ++ c :: rest)) =
        if d == c then some 0 else (findCh c (ds ++ c :: rest)).map (· + 1) from rfl,
      if_neg hd, ih hds]
    rfl

/-- `strchr` misses entirely when the character is absent. -/
theorem findCh_none (c : Char) (M : List Char) (hM : c ∉ M) :
    findCh c M = none := by
  induction M with
  | nil => rfl
  | cons d ds ih =>
    have hd : d ≠ c := by
      intro h; exact hM (by simp [h])
    have hds : c ∉ ds := fun h => hM (List.mem_cons_of_mem d h)
    simp [findCh, hd, ih hds]

/-! ## The device-list scanner of `parse_device_fields` -/

/-- The pattern `"uid":"` searched by `parse_device_fields`. -/
def patUid : List Char := "\"uid\":\"".toList

/-- The pattern `"type":"Liquidctl"` searched inside a device section. -/
def patType : List Char := "\"type\":\"Liquidctl\"".toList

/-- The backward scan
`while (device_start > data && *device_start != '\x7b') device_start--;`
(`coolercontrol.c`, line 370): the greatest index `i ≤ q` holding an
opening brace, or 0 when there is none. -/
def backBrace (s : List Char) : Nat → Nat
  | 0 => 0
  | q + 1 => if (s[q + 1]?).getD ' ' == lbrace then q + 1 else backBrace s q

/-- `strchr(search_pos, '\x7d')` as a global index, with the C fallback
`device_end = response.data + response.size` when absent
(`coolercontrol.c`, lines 371-372). -/
def closeBrace (s : List Char) (p : Nat) : Nat :=
  match findCh rbrace (s.drop p) with
  | some k => p + k
  | none => s.length

/-- uid extraction inside a copied device section
(`coolercontrol.c`, lines 396-409): find `"uid":"`, skip its 7
characters, read up to the next quote; `none` when either search fails
(the C code then leaves `found` at 0). -/
def extractUid (sec : List Char) : Option (List Char) :=
  match findSub patUid sec with
  | none => none
  | some q =>
    match findCh '\"' (sec.drop (q + 7)) with
    | none => none
    | some r => some ((sec.drop (q + 7)).take r)

/-- The scanning loop of `parse_device_fields` (`coolercontrol.c`,
lines 367-416), specialised to the uid-only call of `get_device_uid`
(name buffer NULL, uid buffer of size 128).  Per iteration: find the
next `"uid":"` occurrence; delimit the enclosing section by scanning
back to the nearest opening brace and forward to the nearest closing
brace; if the section is shorter than 4096 and contains
`"type":"Liquidctl"`, extract the uid and accept it when shorter than
128 characters; otherwise resume at the closing brace.  `fuel` bounds
the iteration count; `s.length + 1` always suffices
(`scanFrom_congr_fuel`). -/
def scanFrom (s : List Char) : Nat → Nat → Option (List Char)
  | 0, _ => none
  | fuel + 1, pos =>
    match findSub patUid (s.drop pos) with
    | none => none
    | some k =>
      let p0 := pos + k
      let i := backBrace s p0
      let j := closeBrace s p0
      let sec := (s.drop i).take (j - i)
      if j - i < 4096 && containsSub patType sec then
        match extractUid sec with
        | some u => if u.length < 128 then some u else scanFrom s fuel j
        | none => scanFrom s fuel j
      else scanFrom s fuel j

/-- The uid produced by one full scan of a response body. -/
def scanAll (s : List Char) : Option (List Char) := scanFrom s (s.length + 1) 0

theorem scanFrom_succ_eq (s : List Char) (fuel pos : Nat) :
    scanFrom s (fuel + 1) pos =
      match findSub patUid (s.drop pos) with
      | none => none
      | some k =>
        let p0 := pos + k
        let i := backBrace s p0
        let j := closeBrace s p0
        let sec := (s.drop i).take (j - i)
        if j - i < 4096 && containsSub patType sec then
          match extractUid sec with
          | some u => if u.length < 128 then some u else scanFrom s fuel j
          | none => scanFrom s fuel j
        else scanFrom s fuel j := rfl

theorem patUid_ne_nil : patUid ≠ [] := by decide

theorem patUid_length : patUid.length = 7 := by decide

theorem findCh_lt_length {c : Char} :
    ∀ {l : List Char} {r : Nat}, findCh c l = some r → r < l.length := by
  intro l
  induction l with
  | nil => intro r h; cases h
  | cons d ds ih =>
    intro r h
    rw [show findCh c (d :: ds) =
      if (d == c) then some 0 else (findCh c ds).map (· + 1) from rfl] at h
    split at h
    · cases h; simp
    · rw [Option.map_eq_some'] at h
      obtain ⟨r', hr', rfl⟩ := h
      have := ih hr'
      simp only [List.length_cons]
      omega

/-- Bounds provided by one successful pattern search: the occurrence
fits in `s`, and the closing-brace jump advances strictly. -/
theorem scan_step_bounds {s : List Char} {pos k : Nat}
    (h : findSub patUid (s.drop pos) = some k) :
    pos + k + 7 ≤ s.length ∧
    pos + k + 1 ≤ closeBrace s (pos + k) ∧
    closeBrace s (pos + k) ≤ s.length := by
  obtain ⟨h1, -⟩ := (findSub_some_iff patUid patUid_ne_nil _ k).mp h
  rw [List.drop_drop] at h1
  have hb := occurs_drop_bound patUid_ne_nil h1
  rw [patUid_length] at hb
  obtain ⟨t, ht⟩ := h1
  refine ⟨by omega, ?_, ?_⟩
  · cases hch : findCh rbrace (s.drop (pos + k)) with
    | none =>
      simp only [closeBrace, hch]
      omega
    | some r =>
      simp only [closeBrace, hch]
      have hdrop : s.drop (pos + k) = '\"' :: (patUid.tail ++ t) := by
        rw [← ht]; rfl
      rw [hdrop] at hch
      rw [show findCh rbrace ('\"' :: (patUid.tail ++ t)) =
        if ('\"' == rbrace) then some 0
        else (findCh rbrace (patUid.tail ++ t)).map (· + 1) from rfl] at hch
      rw [if_neg (by decide)] at hch
      rw [Option.map_eq_some'] at hch
      obtain ⟨r', -, hr⟩ := hch
      omega
  · cases hch : findCh rbrace (s.drop (pos + k)) with
    | none =>
      simp only [closeBrace, hch]
      omega
    | some r =>
      simp only [closeBrace, hch]
      have hlt := findCh_lt_length hch
      rw [List.length_drop] at hlt
      omega

theorem scanFrom_succ_none {s : List Char} {pos : Nat} (fuel : Nat)
    (h : findSub patUid (s.drop pos) = none) :
    scanFrom s (fuel + 1) pos = none := by
  rw [scanFrom_succ_eq, h]

theorem scanFrom_succ_some {s : List Char} {pos k : Nat} (fuel : Nat)
    (h : findSub patUid (s.drop pos) = some k) :
    scanFrom s (fuel + 1) pos =
      (let p0 := pos + k
       let i := backBrace s p0
       let j := closeBrace s p0
       let sec := (s.drop i).take (j - i)
       if j - i < 4096 && containsSub patType sec then
         match extractUid sec with
         | some u => if u.length < 128 then some u else scanFrom s fuel j
         | none => scanFrom s fuel j
       else scanFrom s fuel j) := by
  rw [scanFrom_succ_eq, h]

theorem findSub_drop_none_of_ge {s : List Char} {pos : Nat} (h : s.length ≤ pos) :
    findSub patUid (s.drop pos) = none := by
  rw [List.drop_eq_nil_of_le h]
  exact findSub_nil_of_ne patUid patUid_ne_nil

theorem scanFrom_none_of_ge {s : List Char} {pos : Nat} (h : s.length ≤ pos) :
    ∀ fuel, scanFrom s fuel pos = none := by
  intro fuel
  cases fuel with
  | zero => rfl
  | succ f => exact scanFrom_succ_none f (findSub_drop_none_of_ge h)

/-- Fuel invariance: any fuel of at least `s.length + 1 - pos` computes
the same scan result (each iteration advances the position). -/
theorem scanFrom_congr_fuel (s : List Char) :
    ∀ f g pos, s.length + 1 - pos ≤ f → s.length + 1 - pos ≤ g →
      scanFrom s f pos = scanFrom s g pos := by
  intro f
  induction f with
  | zero =>
    intro g pos hf hg
    have hpos : s.length ≤ pos := by omega
    rw [scanFrom_none_of_ge hpos g, scanFrom_none_of_ge hpos 0]
  | succ f ih =>
    intro g pos hf hg
    cases g with
    | zero =>
      have hpos : s.length ≤ pos := by omega
      rw [scanFrom_none_of_ge hpos (f + 1), scanFrom_none_of_ge hpos 0]
    | succ g =>
      cases hfind : findSub patUid (s.drop pos) with
      | none => rw [scanFrom_succ_none f hfind, scanFrom_succ_none g hfind]
      | some k =>
        rw [scanFrom_succ_some f hfind, scanFrom_succ_some g hfind]
        obtain ⟨hb1, hb2, hb3⟩ := scan_step_bounds hfind
        have hrec : scanFrom s f (closeBrace s (pos + k)) =
            scanFrom s g (closeBrace s (pos + k)) :=
          ih g _ (by omega) (by omega)
        simp only [hrec]

/-- Position shift: when the first occurrence seen from `pos` is the
first occurrence seen from `pos' ≥ pos` (no occurrence starts in
between), the scan results agree. -/
theorem scanFrom_shift (s : List Char) (pos pos1 f g : Nat) (hle : pos ≤ pos1)
    (hagree : findSub patUid (s.drop pos) =
      (findSub patUid (s.drop pos1)).map (· + (pos1 - pos)))
    (hf : s.length + 1 - pos ≤ f) (hg : s.length + 1 - pos1 ≤ g) :
    scanFrom s f pos = scanFrom s g pos1 := by
  cases f with
  | zero =>
    have hpos : s.length ≤ pos := by omega
    rw [scanFrom_none_of_ge hpos 0, scanFrom_none_of_ge (le_trans hpos hle) g]
  | succ f =>
    cases g with
    | zero =>
      have hpos : s.length ≤ pos1 := by omega
      have hm : findSub patUid (s.drop pos) = none := by
        rw [hagree, findSub_drop_none_of_ge hpos]
        rfl
      rw [scanFrom_succ_none f hm, scanFrom_none_of_ge hpos 0]
    | succ g =>
      cases hfind : findSub patUid (s.drop pos1) with
      | none =>
        have hm : findSub patUid (s.drop pos) = none := by
          rw [hagree, hfind]; rfl
        rw [scanFrom_succ_none f hm, scanFrom_succ_none g hfind]
      | some k =>
        have hm : findSub patUid (s.drop pos) = some (k + (pos1 - pos)) := by
          rw [hagree, hfind]; rfl
        rw [scanFrom_succ_some f hm, scanFrom_succ_some g hfind]
        have hp0 : pos + (k + (pos1 - pos)) = pos1 + k := by omega
        rw [hp0]
        obtain ⟨hb1, hb2, hb3⟩ := scan_step_bounds hfind
        have hrec : scanFrom s f (closeBrace s (pos1 + k)) =
            scanFrom s g (closeBrace s (pos1 + k)) :=
          scanFrom_congr_fuel s f g _ (by omega) (by omega)
        simp only [hrec]

/-! ## Structured device lists and their rendered JSON bodies -/

/-- A structured device record for well-formed `/devices` bodies: the
`type` field plus optional `uid` and `name` string fields. -/
structure DeviceObj where
  dtype : List Char
  uid : Option (List Char)
  name : Option (List Char)
  deriving DecidableEq, Repr

/-- Characters allowed in rendered field values: anything except quotes
and braces (the scanner knows no escaping). -/
def safeVal (v : List Char) : Bool :=
  v.all (fun c => c != '\"' && c != lbrace && c != rbrace)

/-- The rendered `"type":"..."` field. -/
def typeSeg (d : DeviceObj) : List Char := "\"type\":\"".toList ++ d.dtype ++ ['\"']

/-- The rendered `,"uid":"..."` field (empty when the device has none). -/
def uidSeg : Option (List Char) → List Char
  | none => []
  | some u => ',' :: (patUid ++ u ++ ['\"'])

/-- The rendered `,"name":"..."` field (empty when the device has none). -/
def nameSeg : Option (List Char) → List Char
  | none => []
  | some n => ",\"name\":\"".toList ++ n ++ ['\"']

/-- One rendered device object. -/
def renderDev (d : DeviceObj) : List Char :=
  lbrace :: ((typeSeg d ++ uidSeg d.uid ++ nameSeg d.name) ++ [rbrace])

/-- The rendered tail of a device array; `b` records whether a
separating comma precedes the next object. -/
def renderTail : Bool → List DeviceObj → List Char
  | _, [] => [']']
  | b, d :: rest => (if b then [','] else []) ++ renderDev d ++ renderTail true rest

/-- A whole rendered `/devices` body. -/
def renderBody (ds : List DeviceObj) : List Char := '[' :: renderTail false ds

/-- The selection rule the scanner implements: first device of type
Liquidctl that also carries a uid field. -/
def eligDevice (d : DeviceObj) : Bool :=
  d.dtype == "Liquidctl".toList && d.uid.isSome

/-- Modelled from the spec: "core selects the first object with
`type == "Liquidctl"`" — the claim's selection rule, for comparison
with the scanner's behaviour. -/
def specFirstLiquidctl (ds : List DeviceObj) : Option DeviceObj :=
  ds.find? (fun d => d.dtype == "Liquidctl".toList)

/-- Lexical sanity of one device record: safe values, uid below the
128-byte buffer, rendered object below the 4096-byte section buffer,
the uid-key pattern occurring exactly at the uid field (nowhere when the
device has no uid field), and the type pattern occurring in the section
iff the type is Liquidctl. -/
def GoodDev (d : DeviceObj) : Prop :=
  safeVal d.dtype = true ∧
  (∀ u, d.uid = some u → safeVal u = true ∧ u.length < 128) ∧
  (∀ n, d.name = some n → safeVal n = true) ∧
  (renderDev d).length ≤ 4096 ∧
  findSub patUid (renderDev d) =
    (match d.uid with
     | some _ => some (11 + d.dtype.length)
     | none => none) ∧
  containsSub patType ((renderDev d).dropLast) = (d.dtype == "Liquidctl".toList)

example : scanAll (renderBody [⟨"Liquidctl".toList, some "abc".toList, none⟩]) =
    some "abc".toList := by decide

example : scanAll (renderBody [⟨"Liquidctl".toList, none, some "A".toList⟩,
    ⟨"Liquidctl".toList, some "zzz".toList, none⟩]) = some "zzz".toList := by decide

example : scanAll (renderBody [⟨"Other".toList, some "abc".toList, none⟩,
    ⟨"Liquidctl".toList, some "k1".toList, some "Kraken".toList⟩]) =
    some "k1".toList := by decide

example : scanAll (renderBody [⟨"Other".toList, some "abc".toList, none⟩]) = none := by
  decide

example : GoodDev ⟨"Liquidctl".toList, some "abc".toList, none⟩ := by
  refine ⟨by decide, ?_, ?_, by decide, by decide, by decide⟩
  · intro u hu
    cases hu
    exact ⟨by decide, by decide⟩
  · intro n hn
    cases hn

/-! ## Helper lemmas for the scanner/selection equivalence -/

theorem occurs_append_transfer {p X R : List Char} {j : Nat}
    (h : p <+: (X ++ R).drop j) (hj : j ≤ X.length) (hfit : j + p.length ≤ X.length) :
    p <+: X.drop j := by
  rw [ List.prefix_iff_eq_take] at h ⊢
  have h1 : p.length - (X.drop j).length = 0 := by
    rw [List.length_drop]; omega
  calc p = ((X ++ R).drop j).take p.length := h
    _ = (X.drop j ++ R).take p.length := by
          rw [List.drop_append_eq_append_drop, Nat.sub_eq_zero_of_le hj, List.drop_zero]
    _ = (X.drop j).take p.length := by
          rw [List.take_append_eq_append_take, h1, List.take_zero, List.append_nil]

theorem occurs_append_extend {p X R : List Char} {j : Nat} (h : p <+: X.drop j) :
    p <+: (X ++ R).drop j := by
  have h2 : X.drop j <+: (X ++ R).drop j := by
    rw [List.drop_append_eq_append_drop]
    exact List.prefix_append _ _
  exact h.trans h2

theorem backBrace_succ_eq (s : List Char) (q : Nat) :
    backBrace s (q + 1) =
      if (s[q + 1]?).getD ' ' == lbrace then q + 1 else backBrace s q := rfl

theorem backBrace_eq (s : List Char) :
    ∀ (p a : Nat), 1 ≤ a → a ≤ p → ((s[a]?).getD ' ' == lbrace) = true →
      (∀ q, a < q → q ≤ p → ((s[q]?).getD ' ' == lbrace) = false) →
      backBrace s p = a := by
  intro p
  induction p with
  | zero =>
    intro a ha0 hap _ _
    omega
  | succ p ih =>
    intro a ha0 hap hbrace hmid
    rcases Nat.lt_or_ge a (p + 1) with hlt | hge
    · have hq := hmid (p + 1) hlt (le_refl _)
      rw [backBrace_succ_eq, hq, if_neg Bool.false_ne_true]
      exact ih a ha0 (by omega) hbrace (fun q h1 h2 => hmid q h1 (by omega))
    · have ha : a = p + 1 := by omega
      subst ha
      rw [backBrace_succ_eq, hbrace, if_pos rfl]

theorem getElem?_all {l : List Char} {f : Char → Bool} (hall : l.all f = true)
    {t : Nat} {c : Char} (h : l[t]? = some c) : f c = true := by
  rw [List.all_eq_true] at hall
  exact hall c (List.getElem?_mem h)

theorem typeSeg_length (d : DeviceObj) : (typeSeg d).length = 9 + d.dtype.length := by
  simp [typeSeg]
  omega

theorem uidSeg_some_length (u : List Char) : (uidSeg (some u)).length = 9 + u.length := by
  simp [uidSeg, patUid]
  omega

theorem renderDev_length (d : DeviceObj) (u : List Char) (hu : d.uid = some u) :
    (renderDev d).length =
      20 + d.dtype.length + u.length + (nameSeg d.name).length := by
  simp [renderDev, hu, typeSeg_length, uidSeg_some_length]
  omega

/-- The prefix of a rendered device up to (and excluding) its uid-key
pattern: opening brace, type field, separating comma. -/
def devHead (d : DeviceObj) : List Char := lbrace :: (typeSeg d ++ [','])

theorem devHead_length (d : DeviceObj) : (devHead d).length = 11 + d.dtype.length := by
  simp [devHead, typeSeg_length]
  omega

theorem renderDev_decomp (d : DeviceObj) (u : List Char) (hu : d.uid = some u) :
    renderDev d =
      devHead d ++ (patUid ++ (u ++ ('\"' :: (nameSeg d.name ++ [rbrace])))) := by
  simp [renderDev, devHead, uidSeg, hu]

theorem renderDev_concat (d : DeviceObj) :
    renderDev d = (lbrace :: (typeSeg d ++ uidSeg d.uid ++ nameSeg d.name)) ++ [rbrace] := by
  simp [renderDev]

theorem renderDev_dropLast (d : DeviceObj) :
    (renderDev d).dropLast = lbrace :: (typeSeg d ++ uidSeg d.uid ++ nameSeg d.name) := by
  rw [renderDev_concat, List.dropLast_concat]

theorem renderDev_ne_nil (d : DeviceObj) : renderDev d ≠ [] := by
  rw [renderDev]
  exact List.cons_ne_nil _ _

theorem renderDev_getLast? (d : DeviceObj) : (renderDev d).getLast? = some rbrace := by
  rw [renderDev_concat]
  exact List.getLast?_concat _

theorem renderDev_getLast (d : DeviceObj) (h : renderDev d ≠ []) :
    (renderDev d).getLast h = rbrace := by
  have h1 : some ((renderDev d).getLast h) = some rbrace := by
    rw [← List.getLast?_eq_getLast _ h, renderDev_getLast?]
  exact Option.some_injective _ h1

theorem getElem?_append_left_of_lt {A B : List Char} {q : Nat} (h : q < A.length) :
    (A ++ B)[q]? = A[q]? := by
  rw [List.getElem?_append, if_pos h]

theorem getElem?_append_right_of_le {A B : List Char} {q : Nat} (h : A.length ≤ q) :
    (A ++ B)[q]? = B[q - A.length]? := by
  rw [List.getElem?_append, if_neg (by omega)]

theorem safeVal_spec {v : List Char} (h : safeVal v = true) :
    ∀ c ∈ v, c ≠ '\"' ∧ c ≠ lbrace ∧ c ≠ rbrace := by
  rw [safeVal, List.all_eq_true] at h
  intro c hc
  have := h c hc
  simp only [Bool.and_eq_true, bne_iff_ne] at this
  exact ⟨this.1.1, this.1.2, this.2⟩

theorem not_mem_of_safe_quote {v : List Char} (h : safeVal v = true) : '\"' ∉ v := by
  intro hm
  exact (safeVal_spec h _ hm).1 rfl

theorem not_mem_of_safe_rbrace {v : List Char} (h : safeVal v = true) : rbrace ∉ v := by
  intro hm
  exact (safeVal_spec h _ hm).2.2 rfl

theorem safeVal_all_not_lbrace {v : List Char} (h : safeVal v = true) :
    v.all (fun c => !(c == lbrace)) = true := by
  rw [List.all_eq_true]
  intro c hc
  simp only [Bool.not_eq_eq_eq_not, Bool.not_true, beq_eq_false_iff_ne]
  exact (safeVal_spec h c hc).2.1

theorem findSub_patUid_comma (R : List Char) :
    findSub patUid (',' :: R) = (findSub patUid R).map (· + 1) :=
  findSub_cons_shift patUid ',' R (by decide) (by decide)

theorem findSub_patUid_rbrace (R : List Char) :
    findSub patUid (rbrace :: R) = (findSub patUid R).map (· + 1) :=
  findSub_cons_shift patUid rbrace R (by decide) (by decide)

/-- A device without a uid field is invisible to the uid scan: the first
occurrence past it is the first occurrence in the rest, shifted. -/
theorem findSub_skip_dev (d : DeviceObj) (R : List Char) (hgood : GoodDev d)
    (hnone : d.uid = none) :
    findSub patUid (renderDev d ++ R) =
      (findSub patUid R).map (· + (renderDev d).length) := by
  apply findSub_append_shift _ _ _ patUid_ne_nil
  · intro j
    have h1 : findSub patUid (renderDev d) = none := by
      have h := hgood.2.2.2.2.1
      rw [hnone] at h
      exact h
    exact (findSub_none_iff patUid patUid_ne_nil _).mp h1 j
  · intro h
    rw [renderDev_getLast d h]
    decide

/-- A device with a uid field anchors the first occurrence at its own
uid key. -/
theorem findSub_hit_dev (d : DeviceObj) (u : List Char) (R : List Char)
    (hgood : GoodDev d) (hu : d.uid = some u) :
    findSub patUid (renderDev d ++ R) = some (11 + d.dtype.length) := by
  have h1 : findSub patUid (renderDev d) = some (11 + d.dtype.length) := by
    have h := hgood.2.2.2.2.1
    rw [hu] at h
    exact h
  obtain ⟨hpre, hmin⟩ := (findSub_some_iff _ patUid_ne_nil _ _).mp h1
  rw [findSub_some_iff _ patUid_ne_nil]
  refine ⟨occurs_append_extend hpre, ?_⟩
  intro j hj hpre2
  apply hmin j hj
  have hjb : j + patUid.length ≤ (renderDev d).length := by
    rw [patUid_length, renderDev_length d u hu]
    omega
  exact occurs_append_transfer hpre2 (by rw [renderDev_length d u hu]; omega) hjb

/-- Inside a rendered device, every position from just after the opening
brace up to the uid key holds a non-brace character. -/
theorem renderDev_head_not_lbrace (d : DeviceObj) (u : List Char)
    (hu : d.uid = some u) (hsafe : safeVal d.dtype = true) :
    ∀ t, 1 ≤ t → t ≤ 11 + d.dtype.length →
      (((renderDev d)[t]?).getD ' ' == lbrace) = false := by
  intro t h1 h2
  rw [renderDev_decomp d u hu]
  rcases Nat.lt_or_ge t (devHead d).length with hlt | hge
  · rw [getElem?_append_left_of_lt hlt]
    obtain ⟨t, rfl⟩ : ∃ t2, t = t2 + 1 := ⟨t - 1, by omega⟩
    have hdev : (devHead d)[t + 1]? = (typeSeg d ++ [','])[t]? := by
      simp only [devHead, List.getElem?_cons_succ]
    rw [hdev]
    have h1 : (d.dtype).all (fun c => !(c == lbrace)) = true :=
      safeVal_all_not_lbrace hsafe
    have hall : (typeSeg d ++ [',']).all (fun c => !(c == lbrace)) = true := by
      unfold typeSeg
      simp only [List.all_append, Bool.and_eq_true]
      exact ⟨⟨⟨by decide, h1⟩, by decide⟩, by decide⟩
    cases hget : (typeSeg d ++ [','])[t]? with
    | none => rfl
    | some c =>
      have := getElem?_all hall hget
      simp only [Bool.not_eq_eq_eq_not, Bool.not_true] at this
      simpa using this
  · have ht : t = (devHead d).length := by
      rw [devHead_length]
      rw [devHead_length] at hge
      omega
    rw [getElem?_append_right_of_le hge, ht, Nat.sub_self]
    rfl

theorem rbrace_not_mem_nameSeg {o : Option (List Char)}
    (h : ∀ n, o = some n → safeVal n = true) : rbrace ∉ nameSeg o := by
  cases o with
  | none => simp [nameSeg]
  | some n =>
    have hn := h n rfl
    simp only [nameSeg, List.mem_append, List.mem_cons]
    rintro ((hmem | hmem) | hmem)
    · revert hmem; decide
    · exact not_mem_of_safe_rbrace hn hmem
    · revert hmem; decide

/-- uid extraction from a rendered device section recovers the uid. -/
theorem extractUid_renderDev (d : DeviceObj) (u : List Char)
    (hgood : GoodDev d) (hu : d.uid = some u) :
    extractUid ((renderDev d).dropLast) = some u := by
  obtain ⟨hsafeT, hsafeU, hsafeN, hlen, hfind, -⟩ := hgood
  obtain ⟨hsafeu, hulen⟩ := hsafeU u hu
  rw [hu] at hfind
  have hDlen := renderDev_length d u hu
  have hdl : (renderDev d).dropLast = (renderDev d).take ((renderDev d).length - 1) := by
    rw [List.dropLast_eq_take]
  have hsec : findSub patUid ((renderDev d).dropLast) = some (11 + d.dtype.length) := by
    rw [hdl]
    exact findSub_take patUid _ patUid_ne_nil hfind
      (by rw [patUid_length]; omega)
  have hdecomp : (renderDev d).dropLast =
      (devHead d ++ patUid) ++ (u ++ ('\"' :: nameSeg d.name)) := by
    have h1 : renderDev d =
        ((devHead d ++ patUid) ++ (u ++ ('\"' :: nameSeg d.name))) ++ [rbrace] := by
      rw [renderDev_decomp d u hu]
      simp [List.append_assoc]
    rw [h1, List.dropLast_concat]
  have hdrop : ((renderDev d).dropLast).drop (11 + d.dtype.length + 7) =
      u ++ ('\"' :: nameSeg d.name) := by
    rw [hdecomp]
    have h2 : (devHead d ++ patUid).length = 11 + d.dtype.length + 7 := by
      rw [List.length_append, devHead_length, patUid_length]
    rw [← h2, List.drop_left]
  simp only [extractUid, hsec, hdrop,
    findCh_append '\"' u (nameSeg d.name) (not_mem_of_safe_quote hsafeu),
    List.take_left]

/-- Examination of one uid-carrying device by the scan loop: if its type
is Liquidctl the uid is returned; otherwise the scan resumes at the
device's closing brace. -/
theorem scan_examine_dev (Cpre R : List Char) (d : DeviceObj) (u : List Char)
    (hgood : GoodDev d) (hu : d.uid = some u) (hC : 1 ≤ Cpre.length) (fuel : Nat) :
    scanFrom (Cpre ++ (renderDev d ++ R)) (fuel + 1) Cpre.length =
      (if d.dtype == "Liquidctl".toList then some u
       else scanFrom (Cpre ++ (renderDev d ++ R)) fuel
         (Cpre.length + (renderDev d).length - 1)) := by
  obtain ⟨hsafeT, hsafeU, hsafeN, hlen, hfindD, hcont⟩ := hgood
  obtain ⟨hsafeu, hulen⟩ := hsafeU u hu
  have hDlen := renderDev_length d u hu
  have hdropC : (Cpre ++ (renderDev d ++ R)).drop Cpre.length = renderDev d ++ R :=
    List.drop_left _ _
  have hfind : findSub patUid ((Cpre ++ (renderDev d ++ R)).drop Cpre.length) =
      some (11 + d.dtype.length) := by
    rw [hdropC]
    exact findSub_hit_dev d u R ⟨hsafeT, hsafeU, hsafeN, hlen, hfindD, hcont⟩ hu
  rw [scanFrom_succ_some fuel hfind]
  have hi : backBrace (Cpre ++ (renderDev d ++ R)) (Cpre.length + (11 + d.dtype.length)) =
      Cpre.length := by
    apply backBrace_eq _ _ _ hC (by omega)
    · have hget : (Cpre ++ (renderDev d ++ R))[Cpre.length]? = some lbrace := by
        rw [getElem?_append_right_of_le (le_refl _), Nat.sub_self]
        rfl
      rw [hget]
      decide
    · intro q hq1 hq2
      have ht1 : 1 ≤ q - Cpre.length := by omega
      have ht2 : q - Cpre.length ≤ 11 + d.dtype.length := by omega
      have hget : (Cpre ++ (renderDev d ++ R))[q]? = (renderDev d)[q - Cpre.length]? := by
        rw [getElem?_append_right_of_le (by omega)]
        exact getElem?_append_left_of_lt (by omega)
      rw [hget]
      exact renderDev_head_not_lbrace d u hu hsafeT _ ht1 ht2
  have hj : closeBrace (Cpre ++ (renderDev d ++ R)) (Cpre.length + (11 + d.dtype.length)) =
      Cpre.length + (renderDev d).length - 1 := by
    have hdropP : (Cpre ++ (renderDev d ++ R)).drop (Cpre.length + (11 + d.dtype.length)) =
        (patUid ++ (u ++ ('\"' :: nameSeg d.name))) ++ (rbrace :: R) := by
      have h1 : Cpre ++ (renderDev d ++ R) =
          (Cpre ++ devHead d) ++
            ((patUid ++ (u ++ ('\"' :: (nameSeg d.name ++ [rbrace])))) ++ R) := by
        rw [renderDev_decomp d u hu]
        simp [List.append_assoc]
      have h2 : (Cpre ++ devHead d).length = Cpre.length + (11 + d.dtype.length) := by
        rw [List.length_append, devHead_length]
      rw [h1, ← h2, List.drop_left]
      simp [List.append_assoc]
    have hM : rbrace ∉ patUid ++ (u ++ ('\"' :: nameSeg d.name)) := by
      simp only [List.mem_append, List.mem_cons]
      rintro (hmem | hmem | hmem | hmem)
      · revert hmem; decide
      · exact not_mem_of_safe_rbrace hsafeu hmem
      · exact absurd hmem (by decide)
      · exact rbrace_not_mem_nameSeg hsafeN hmem
    have hch : findCh rbrace
        ((Cpre ++ (renderDev d ++ R)).drop (Cpre.length + (11 + d.dtype.length))) =
        some (patUid ++ (u ++ ('\"' :: nameSeg d.name))).length := by
      rw [hdropP]
      exact findCh_append rbrace _ _ hM
    simp only [closeBrace, hch]
    simp only [List.length_append, List.length_cons, patUid_length]
    omega
  simp only [hi, hj]
  have harith : Cpre.length + (renderDev d).length - 1 - Cpre.length =
      (renderDev d).length - 1 := by omega
  have hsec : ((Cpre ++ (renderDev d ++ R)).drop Cpre.length).take
      ((renderDev d).length - 1) = (renderDev d).dropLast := by
    rw [hdropC, List.take_append_eq_append_take]
    have hz : (renderDev d).length - 1 - (renderDev d).length = 0 := by omega
    rw [hz, List.take_zero, List.append_nil, List.dropLast_eq_take]
  rw [harith, hsec]
  have hg : GoodDev d := ⟨hsafeT, hsafeU, hsafeN, hlen, hfindD, hcont⟩
  have hcond4096 : decide ((renderDev d).length - 1 < 4096) = true := by
    rw [decide_eq_true_eq]
    omega
  rw [hcont, hcond4096, Bool.true_and]
  cases hLiq : d.dtype == "Liquidctl".toList with
  | true =>
    rw [if_pos rfl, if_pos rfl, extractUid_renderDev d u hg hu]
    show (if u.length < 128 then some u
      else scanFrom (Cpre ++ (renderDev d ++ R)) fuel
        (Cpre.length + (renderDev d).length - 1)) = some u
    rw [if_pos hulen]
  | false =>
    rw [if_neg Bool.false_ne_true, if_neg Bool.false_ne_true]

/-- Skipping a uid-less device together with its optional separating
comma. -/
theorem findSub_skip_dev_sep (b : Bool) (d : DeviceObj) (T2 : List Char)
    (hgood : GoodDev d) (hnone : d.uid = none) :
    findSub patUid (((if b then [','] else []) ++ renderDev d) ++ T2) =
      (findSub patUid T2).map
        (· + ((if b then [','] else []) ++ renderDev d).length) := by
  cases b with
  | false =>
    show findSub patUid (renderDev d ++ T2) =
      (findSub patUid T2).map (· + (renderDev d).length)
    exact findSub_skip_dev d T2 hgood hnone
  | true =>
    show findSub patUid (',' :: (renderDev d ++ T2)) =
      (findSub patUid T2).map (· + ([','] ++ renderDev d).length)
    rw [findSub_patUid_comma, findSub_skip_dev d T2 hgood hnone]
    cases findSub patUid T2 with
    | none => rfl
    | some k =>
      simp only [Option.map_some', Option.some.injEq, List.length_append,
        List.length_singleton]
      omega

/-- The scanner run from the start of the rendered tail of a device list
returns the uid of the first Liquidctl device that carries a uid field.
This is the loop invariant behind `parse_uid_selects_first`. -/
theorem scan_renderTail :
    ∀ (ds : List DeviceObj) (C : List Char) (b : Bool) (fuel : Nat),
      (∀ d ∈ ds, GoodDev d) → 1 ≤ C.length →
      (C ++ renderTail b ds).length + 1 - C.length ≤ fuel →
      scanFrom (C ++ renderTail b ds) fuel C.length =
        (ds.find? eligDevice).bind DeviceObj.uid := by
  intro ds
  induction ds with
  | nil =>
    intro C b fuel _ hC hfuel
    obtain ⟨f, rfl⟩ : ∃ f, fuel = f + 1 := by
      refine ⟨fuel - 1, ?_⟩
      simp only [List.length_append] at hfuel
      omega
    have hdrop : (C ++ renderTail b []).drop C.length = [']'] := List.drop_left _ _
    have hnone : findSub patUid ((C ++ renderTail b []).drop C.length) = none := by
      rw [hdrop]
      decide
    rw [scanFrom_succ_none f hnone]
    rfl
  | cons d rest ih =>
    intro C b fuel hds hC hfuel
    have hgd : GoodDev d := hds d (List.mem_cons_self d rest)
    have hrest : ∀ x ∈ rest, GoodDev x := fun x hx => hds x (List.mem_cons_of_mem d hx)
    have htail : renderTail b (d :: rest) =
        ((if b then [','] else []) ++ renderDev d) ++ renderTail true rest := by
      simp [renderTail, List.append_assoc]
    cases hud : d.uid with
    | none =>
      have helig : eligDevice d = false := by
        simp [eligDevice, hud]
      have hassoc : C ++ renderTail b (d :: rest) =
          (C ++ ((if b then [','] else []) ++ renderDev d)) ++ renderTail true rest := by
        rw [htail]
        simp [List.append_assoc]
      have hC2 : (C ++ ((if b then [','] else []) ++ renderDev d)).length =
          C.length + ((if b then [','] else []) ++ renderDev d).length := by
        rw [List.length_append]
      have hdrop1 : (C ++ renderTail b (d :: rest)).drop C.length =
          ((if b then [','] else []) ++ renderDev d) ++ renderTail true rest := by
        rw [htail]
        exact List.drop_left _ _
      have hdrop2 : (C ++ renderTail b (d :: rest)).drop
          (C.length + ((if b then [','] else []) ++ renderDev d).length) =
          renderTail true rest := by
        rw [hassoc, ← hC2]
        exact List.drop_left _ _
      have hagree : findSub patUid ((C ++ renderTail b (d :: rest)).drop C.length) =
          (findSub patUid ((C ++ renderTail b (d :: rest)).drop
            (C.length + ((if b then [','] else []) ++ renderDev d).length))).map
            (· + (C.length + ((if b then [','] else []) ++ renderDev d).length
              - C.length)) := by
        rw [hdrop1, hdrop2, findSub_skip_dev_sep b d _ hgd hud]
        simp
      have hshift := scanFrom_shift (C ++ renderTail b (d :: rest)) C.length
        (C.length + ((if b then [','] else []) ++ renderDev d).length) fuel fuel
        (by omega) hagree hfuel (by omega)
      rw [hshift]
      have hres := ih (C ++ ((if b then [','] else []) ++ renderDev d)) true fuel
        hrest (by rw [hC2]; omega) (by rw [← hassoc, hC2]; omega)
      rw [← hassoc, hC2] at hres
      rw [hres, List.find?_cons_of_neg _ (by rw [helig]; exact Bool.false_ne_true)]
    | some u =>
      have hDlen := renderDev_length d u hud
      obtain ⟨f, rfl⟩ : ∃ f, fuel = f + 1 := by
        refine ⟨fuel - 1, ?_⟩
        simp only [List.length_append] at hfuel
        omega
      have hassoc : C ++ renderTail b (d :: rest) =
          (C ++ (if b then [','] else [])) ++ (renderDev d ++ renderTail true rest) := by
        rw [htail]
        simp [List.append_assoc]
      have hCpre : 1 ≤ (C ++ (if b then [','] else [])).length := by
        rw [List.length_append]
        omega
      have hstep1 : scanFrom (C ++ renderTail b (d :: rest)) (f + 1) C.length =
          scanFrom (C ++ renderTail b (d :: rest)) (f + 1)
            (C ++ (if b then [','] else [])).length := by
        cases b with
        | false => simp
        | true =>
          have hCc : (C ++ (if (true : Bool) = true then [','] else [])) = C ++ [','] := by
            simp
          apply scanFrom_shift _ _ _ _ _ (by simp)
          · rw [hCc]
            have hd1 : (C ++ renderTail true (d :: rest)).drop C.length =
                ',' :: (renderDev d ++ renderTail true rest) := by
              rw [htail]
              rw [show ((if (true : Bool) = true then [','] else []) ++ renderDev d) ++
                  renderTail true rest =
                  ',' :: (renderDev d ++ renderTail true rest) by simp]
              exact List.drop_left _ _
            have hd2 : (C ++ renderTail true (d :: rest)).drop (C ++ [',']).length =
                renderDev d ++ renderTail true rest := by
              rw [hassoc, hCc]
              exact List.drop_left _ _
            rw [hd1, hd2, findSub_patUid_comma]
            simp only [List.length_append, List.length_singleton, Nat.add_sub_cancel_left]
          · exact hfuel
          · rw [hCc]
            have h5 : (C ++ [',']).length = C.length + 1 := by simp
            rw [h5]
            omega
      rw [hstep1]
      have hexam := scan_examine_dev (C ++ (if b then [','] else []))
        (renderTail true rest) d u hgd hud hCpre f
      rw [← hassoc] at hexam
      rw [hexam]
      cases hLiq : d.dtype == "Liquidctl".toList with
      | true =>
        rw [if_pos rfl]
        have helig : eligDevice d = true := by
          unfold eligDevice
          rw [hLiq, hud]
          rfl
        rw [List.find?_cons_of_pos _ helig]
        simp [hud]
      | false =>
        rw [if_neg Bool.false_ne_true]
        have helig : eligDevice d = false := by
          unfold eligDevice
          rw [hLiq]
          rfl
        have hL1 : (C ++ (if b then [','] else [])).length =
            C.length + (if b then ([','] : List Char) else []).length :=
          List.length_append _ _
        have hL2 : ((C ++ (if b then [','] else [])) ++ renderDev d).length =
            (C ++ (if b then [','] else [])).length + (renderDev d).length :=
          List.length_append _ _
        have hLall : (C ++ renderTail b (d :: rest)).length =
            (C ++ (if b then [','] else [])).length + (renderDev d).length +
              (renderTail true rest).length := by
          rw [hassoc]
          simp only [List.length_append]
          omega
        have hs2 : ((C ++ (if b then [','] else [])) ++ renderDev d) ++
            renderTail true rest = C ++ renderTail b (d :: rest) := by
          rw [hassoc, List.append_assoc]
        have hdropj : (C ++ renderTail b (d :: rest)).drop
            ((C ++ (if b then [','] else [])).length + (renderDev d).length - 1) =
            rbrace :: renderTail true rest := by
          have hDsplit : renderDev d = (renderDev d).dropLast ++ [rbrace] := by
            conv_lhs => rw [← List.dropLast_append_getLast (renderDev_ne_nil d)]
            rw [renderDev_getLast]
          have h2 : C ++ renderTail b (d :: rest) =
              ((C ++ (if b then [','] else [])) ++ (renderDev d).dropLast) ++
                (rbrace :: renderTail true rest) := by
            rw [hassoc]
            conv_lhs => rw [hDsplit]
            simp [List.append_assoc]
          have h3 : ((C ++ (if b then [','] else [])) ++ (renderDev d).dropLast).length =
              (C ++ (if b then [','] else [])).length + (renderDev d).length - 1 := by
            simp only [List.length_append, List.length_dropLast]
            omega
          rw [h2, ← h3]
          exact List.drop_left _ _
        have hdropj1 : (C ++ renderTail b (d :: rest)).drop
            (((C ++ (if b then [','] else [])) ++ renderDev d).length) =
            renderTail true rest := by
          rw [← hs2]
          exact List.drop_left _ _
        have hp2 : ((C ++ (if b then [','] else [])) ++ renderDev d).length =
            (C ++ (if b then [','] else [])).length + (renderDev d).length - 1 + 1 := by
          rw [hL2]
          omega
        have hshift2 := scanFrom_shift (C ++ renderTail b (d :: rest))
          ((C ++ (if b then [','] else [])).length + (renderDev d).length - 1)
          (((C ++ (if b then [','] else [])) ++ renderDev d).length) f f
          (by omega)
          (by
            rw [hdropj, hdropj1, findSub_patUid_rbrace]
            simp only [hp2, Nat.add_sub_cancel_left])
          (by omega)
          (by omega)
        rw [hshift2]
        have hres := ih ((C ++ (if b then [','] else [])) ++ renderDev d) true f
          hrest (by omega) (by rw [hs2]; omega)
        rw [hs2] at hres
        rw [hres, List.find?_cons_of_neg _ (by rw [helig]; exact Bool.false_ne_true)]

/-- The full scan from position 0 equals the scan from position 1 past
the opening bracket, giving the selection rule over whole bodies. -/
theorem parse_uid_selects_first (ds : List DeviceObj) (hds : ∀ d ∈ ds, GoodDev d) :
    scanAll (renderBody ds) = (ds.find? eligDevice).bind DeviceObj.uid := by
  unfold scanAll
  have hlb : renderBody ds = ['['] ++ renderTail false ds := rfl
  have hshift := scanFrom_shift (renderBody ds) 0 1
    ((renderBody ds).length + 1) ((renderBody ds).length + 1)
    (by omega)
    (by
      have hd0 : (renderBody ds).drop 0 = '[' :: renderTail false ds := rfl
      have hd1 : (renderBody ds).drop 1 = renderTail false ds := rfl
      rw [hd0, hd1, findSub_cons_shift patUid '[' _ (by decide) (by decide)])
    (by omega) (by omega)
  rw [hshift, hlb]
  have hres := scan_renderTail ds ['['] false ((renderBody ds).length + 1) hds
    (by decide)
    (by rw [← hlb]; omega)
  simpa using hres

/-! ## The `/devices` exchange and the uid cache (`coolercontrol.c`) -/

/-- One `GET /devices` exchange: `curl_easy_perform` result, HTTP
response code, and the body accumulated by `write_callback`. -/
structure DevicesResponse where
  ok : Bool
  code : Int
  body : List Char
  deriving DecidableEq, Repr

/-- `parse_device_fields` (`coolercontrol.c`, lines 337-424) for the
uid-only call of `get_device_uid`: the body is scanned only when the GET
returned `CURLE_OK` with code 200; `none` models `found == 0`, in which
case the uid buffer is not written. -/
def parse_device_fields_uid (resp : DevicesResponse) : Option (List Char) :=
  if resp.ok && resp.code == 200 then scanAll resp.body else none

/-- `get_device_uid` (`coolercontrol.c`, lines 465-468) as invoked by
`init_cached_device_uid` on the global 128-byte `cached_device_uid`
buffer (non-NULL, size 128, so only the handle and session guards can
fire).  On guard or parse failure the buffer keeps its previous
contents. -/
def get_device_uid_cached (st : CCState) (resp : DevicesResponse) : Bool × CCState :=
  if !st.curlHandle || !st.sessionInit then (false, st)
  else
    match parse_device_fields_uid resp with
    | some u => (true, { st with cachedDeviceUid := u })
    | none => (false, st)

/-- `init_cached_device_uid` (`coolercontrol.c`, lines 482-488):
discovery into the global buffer, requiring a non-empty result. -/
def init_cached_device_uid (st : CCState) (resp : DevicesResponse) : Bool × CCState :=
  match get_device_uid_cached st resp with
  | (ok, st2) =>
    if !ok || st2.cachedDeviceUid.isEmpty then (false, st2) else (true, st2)

/-- `get_cached_device_uid` (`coolercontrol.c`, lines 501-503): returns
the global buffer (never NULL; empty string when not initialized). -/
def get_cached_device_uid (st : CCState) : List Char := st.cachedDeviceUid

/-- `cleanup_coolercontrol_session` (`coolercontrol.c`, lines 290-304):
releases the handle and clears the session flag; the cached uid buffer
is not touched. -/
def cleanup_coolercontrol_session (st : CCState) : CCState :=
  { st with curlHandle := false, sessionInit := false }

/-- The coolercontrol API calls that touch the session globals, for
stating invariants over every reachable state. -/
inductive CCOp where
  | opInitSession (handleOk : Bool) (login : HttpOutcome)
  | opInitCachedUid (resp : DevicesResponse)
  | opSendImage (imagePath deviceUid : Option (List Char)) (put : HttpOutcome)
  | opCleanup

/-- One API call acting on the session globals. -/
def ccStep (st : CCState) : CCOp → CCState
  | .opInitSession h l => (init_coolercontrol_session h l st).2
  | .opInitCachedUid r => (init_cached_device_uid st r).2
  | .opSendImage p uidArg o => (send_image_to_lcd st p uidArg o).1
  | .opCleanup => cleanup_coolercontrol_session st

/-- The session globals after a sequence of API calls from process
start. -/
def ccRun (ops : List CCOp) : CCState := ops.foldl ccStep initialCCState

theorem scanFrom_length_lt (s : List Char) :
    ∀ fuel pos u, scanFrom s fuel pos = some u → u.length < 128 := by
  intro fuel
  induction fuel with
  | zero =>
    intro pos u h
    cases h
  | succ f ih =>
    intro pos u h
    rw [scanFrom_succ_eq] at h
    cases hfind : findSub patUid (s.drop pos) with
    | none => rw [hfind] at h; cases h
    | some k =>
      simp only [hfind] at h
      split at h
      · cases hex : extractUid ((s.drop (backBrace s (pos + k))).take
            (closeBrace s (pos + k) - backBrace s (pos + k))) with
        | none =>
          simp only [hex] at h
          exact ih _ _ h
        | some v =>
          simp only [hex] at h
          split at h
          · cases h
            assumption
          · exact ih _ _ h
      · exact ih _ _ h

theorem parse_uid_length_lt {resp : DevicesResponse} {u : List Char}
    (h : parse_device_fields_uid resp = some u) : u.length < 128 := by
  unfold parse_device_fields_uid at h
  split at h
  · exact scanFrom_length_lt _ _ _ _ h
  · cases h

theorem init_cached_uid_guard (st : CCState) (resp : DevicesResponse)
    (h : (!st.curlHandle || !st.sessionInit) = true) :
    init_cached_device_uid st resp = (false, st) := by
  unfold init_cached_device_uid get_device_uid_cached
  rw [if_pos h]
  rfl

theorem init_cached_uid_parse_none (st : CCState) (resp : DevicesResponse)
    (hg : (!st.curlHandle || !st.sessionInit) = false)
    (hp : parse_device_fields_uid resp = none) :
    init_cached_device_uid st resp = (false, st) := by
  unfold init_cached_device_uid get_device_uid_cached
  rw [if_neg (by rw [hg]; exact Bool.false_ne_true), hp]
  rfl

theorem init_cached_uid_parse_some (st : CCState) (resp : DevicesResponse) (u : List Char)
    (hg : (!st.curlHandle || !st.sessionInit) = false)
    (hp : parse_device_fields_uid resp = some u) :
    init_cached_device_uid st resp =
      (if u.isEmpty then false else true, { st with cachedDeviceUid := u }) := by
  unfold init_cached_device_uid get_device_uid_cached
  rw [if_neg (by rw [hg]; exact Bool.false_ne_true), hp]
  cases hu : u.isEmpty <;> simp [hu]

theorem ccStep_uid_length {st : CCState} (h : st.cachedDeviceUid.length ≤ 127)
    (op : CCOp) : (ccStep st op).cachedDeviceUid.length ≤ 127 := by
  cases op with
  | opInitSession hk l =>
    show (init_coolercontrol_session hk l st).2.cachedDeviceUid.length ≤ 127
    unfold init_coolercontrol_session
    split
    · simpa
    · split <;> simpa
  | opInitCachedUid r =>
    show (init_cached_device_uid st r).2.cachedDeviceUid.length ≤ 127
    cases hg : (!st.curlHandle || !st.sessionInit) with
    | true =>
      rw [init_cached_uid_guard st r hg]
      simpa
    | false =>
      cases hp : parse_device_fields_uid r with
      | none =>
        rw [init_cached_uid_parse_none st r hg hp]
        simpa
      | some u =>
        rw [init_cached_uid_parse_some st r u hg hp]
        have hl := parse_uid_length_lt hp
        show u.length ≤ 127
        omega
  | opSendImage p uidArg o =>
    show (send_image_to_lcd st p uidArg o).1.cachedDeviceUid.length ≤ 127
    unfold send_image_to_lcd
    split <;> simpa
  | opCleanup =>
    simpa [ccStep, cleanup_coolercontrol_session]

/-! ## C8: device discovery -/

/-- C8 (counterexample): on a body whose first Liquidctl object carries
no uid field, the scanner returns the uid of the second Liquidctl
object — not a field of the first Liquidctl object, which the claim
says is selected. -/
theorem device_discovery_spec_first_cex :
    parse_device_fields_uid ⟨true, 200,
      renderBody [⟨"Liquidctl".toList, none, some "A".toList⟩,
        ⟨"Liquidctl".toList, some "zzz".toList, none⟩]⟩ = some "zzz".toList ∧
    specFirstLiquidctl [⟨"Liquidctl".toList, none, some "A".toList⟩,
        ⟨"Liquidctl".toList, some "zzz".toList, none⟩] =
      some ⟨"Liquidctl".toList, none, some "A".toList⟩ ∧
    (⟨"Liquidctl".toList, none, some "A".toList⟩ : DeviceObj).uid = none := by
  refine ⟨by decide, by decide, rfl⟩

/-- C8 (amended): on every device-list body rendered from lexically sane
device records, uid discovery selects the first device object whose type
is Liquidctl and that carries a uid field — Liquidctl objects without a
uid field are skipped, as are devices of other types — extracting
exactly that uid, and it reports failure when no such object exists. -/
theorem device_discovery_first_liquidctl_uid (ds : List DeviceObj)
    (hds : ∀ d ∈ ds, GoodDev d) :
    parse_device_fields_uid ⟨true, 200, renderBody ds⟩ =
      (ds.find? eligDevice).bind DeviceObj.uid := by
  have hcond : ((⟨true, 200, renderBody ds⟩ : DevicesResponse).ok &&
      (⟨true, 200, renderBody ds⟩ : DevicesResponse).code == 200) = true := rfl
  unfold parse_device_fields_uid
  rw [if_pos hcond]
  exact parse_uid_selects_first ds hds

/-- C8 witness: a three-device list (a non-Liquidctl device, a uid-less
Liquidctl device, a uid-carrying Liquidctl device). -/
theorem device_discovery_first_liquidctl_uid_witness :
    parse_device_fields_uid ⟨true, 200,
      renderBody [⟨"Other".toList, some "o1".toList, none⟩,
        ⟨"Liquidctl".toList, none, some "A".toList⟩,
        ⟨"Liquidctl".toList, some "k1".toList, some "Kraken".toList⟩]⟩ =
      (([⟨"Other".toList, some "o1".toList, none⟩,
        ⟨"Liquidctl".toList, none, some "A".toList⟩,
        ⟨"Liquidctl".toList, some "k1".toList, some "Kraken".toList⟩] :
          List DeviceObj).find? eligDevice).bind DeviceObj.uid :=
  device_discovery_first_liquidctl_uid _ (by
    intro d hd
    simp only [List.mem_cons, List.not_mem_nil, or_false] at hd
    rcases hd with rfl | rfl | rfl
    · refine ⟨by decide, ?_, ?_, by decide, by decide, by decide⟩
      · intro u hu
        cases hu
        exact ⟨by decide, by decide⟩
      · intro n hn
        cases hn
    · refine ⟨by decide, ?_, ?_, by decide, by decide, by decide⟩
      · intro u hu
        cases hu
      · intro n hn
        cases hn
        decide
    · refine ⟨by decide, ?_, ?_, by decide, by decide, by decide⟩
      · intro u hu
        cases hu
        exact ⟨by decide, by decide⟩
      · intro n hn
        cases hn
        decide)

/-! ## C3: the uid cache across restarts -/

/-- C3 (counterexample): there is no on-disk cache.  A first process run
discovers and caches uid `abc` in memory; a fresh process state whose
discovery request fails ends with an empty cached uid — nothing is
loaded back from any cache file, refuting the claimed save/load
round-trip. -/
theorem uid_cache_no_disk_cex :
    ((init_cached_device_uid ⟨true, true, []⟩
        ⟨true, 200, renderBody [⟨"Liquidctl".toList, some "abc".toList, none⟩]⟩).1 = true ∧
     get_cached_device_uid (init_cached_device_uid ⟨true, true, []⟩
        ⟨true, 200, renderBody [⟨"Liquidctl".toList, some "abc".toList, none⟩]⟩).2 =
        "abc".toList) ∧
    ((init_cached_device_uid ⟨true, true, []⟩ ⟨false, 0, []⟩).1 = false ∧
     get_cached_device_uid (init_cached_device_uid ⟨true, true, []⟩ ⟨false, 0, []⟩).2 =
        []) := by
  refine ⟨⟨by decide, by decide⟩, ⟨by decide, by decide⟩⟩

/-- C3 (amended): the uid is rediscovered from the live `/devices`
response on every start and cached only in process memory: two fresh
starts seeing the same response produce the same result and the same
cached uid; a start succeeds iff the response parses to a non-empty uid,
the cached uid then being exactly the parsed one; a failed start leaves
the cached uid empty. -/
theorem uid_discovery_memory_roundtrip (st1 st2 : CCState) (resp : DevicesResponse)
    (h1 : st1.curlHandle = true) (h2 : st1.sessionInit = true)
    (h3 : st1.cachedDeviceUid = [])
    (h4 : st2.curlHandle = true) (h5 : st2.sessionInit = true)
    (h6 : st2.cachedDeviceUid = []) :
    ((init_cached_device_uid st1 resp).1 = (init_cached_device_uid st2 resp).1 ∧
     get_cached_device_uid (init_cached_device_uid st1 resp).2 =
       get_cached_device_uid (init_cached_device_uid st2 resp).2) ∧
    ((init_cached_device_uid st1 resp).1 = true ↔
      ∃ u, parse_device_fields_uid resp = some u ∧ u ≠ []) ∧
    ((init_cached_device_uid st1 resp).1 = false →
      get_cached_device_uid (init_cached_device_uid st1 resp).2 = []) := by
  have hg1 : (!st1.curlHandle || !st1.sessionInit) = false := by rw [h1, h2]; rfl
  have hg2 : (!st2.curlHandle || !st2.sessionInit) = false := by rw [h4, h5]; rfl
  cases hp : parse_device_fields_uid resp with
  | none =>
    rw [init_cached_uid_parse_none st1 resp hg1 hp,
      init_cached_uid_parse_none st2 resp hg2 hp]
    refine ⟨⟨rfl, ?_⟩, ?_, fun _ => ?_⟩
    · show st1.cachedDeviceUid = st2.cachedDeviceUid
      rw [h3, h6]
    · constructor
      · intro hc
        exact Bool.noConfusion hc
      · rintro ⟨v, hv, -⟩
        cases hv
    · show st1.cachedDeviceUid = []
      exact h3
  | some u =>
    rw [init_cached_uid_parse_some st1 resp u hg1 hp,
      init_cached_uid_parse_some st2 resp u hg2 hp]
    cases hu : u.isEmpty with
    | true =>
      have hue : u = [] := by
        cases u with
        | nil => rfl
        | cons a as => cases hu
      refine ⟨⟨rfl, rfl⟩, ?_, fun _ => ?_⟩
      · constructor
        · intro hc
          exact Bool.noConfusion hc
        · rintro ⟨v, hv, hvne⟩
          cases hv
          exact absurd hue hvne
      · show u = []
        exact hue
    | false =>
      have hune : u ≠ [] := by
        intro he
        rw [he] at hu
        cases hu
      refine ⟨⟨rfl, rfl⟩, ?_, fun hc => ?_⟩
      · constructor
        · intro _
          exact ⟨u, rfl, hune⟩
        · intro _
          rfl
      · exact Bool.noConfusion hc

/-- C3 witness: a concrete successful discovery round-trip across two
fresh process states. -/
theorem uid_discovery_memory_roundtrip_witness :
    ((init_cached_device_uid ⟨true, true, []⟩
        ⟨true, 200, renderBody [⟨"Liquidctl".toList, some "abc".toList, none⟩]⟩).1 =
      (init_cached_device_uid ⟨true, true, []⟩
        ⟨true, 200, renderBody [⟨"Liquidctl".toList, some "abc".toList, none⟩]⟩).1 ∧
     get_cached_device_uid (init_cached_device_uid ⟨true, true, []⟩
        ⟨true, 200, renderBody [⟨"Liquidctl".toList, some "abc".toList, none⟩]⟩).2 =
       get_cached_device_uid (init_cached_device_uid ⟨true, true, []⟩
        ⟨true, 200, renderBody [⟨"Liquidctl".toList, some "abc".toList, none⟩]⟩).2) ∧
    ((init_cached_device_uid ⟨true, true, []⟩
        ⟨true, 200, renderBody [⟨"Liquidctl".toList, some "abc".toList, none⟩]⟩).1 = true ↔
      ∃ u, parse_device_fields_uid
        ⟨true, 200, renderBody [⟨"Liquidctl".toList, some "abc".toList, none⟩]⟩ =
          some u ∧ u ≠ []) ∧
    ((init_cached_device_uid ⟨true, true, []⟩
        ⟨true, 200, renderBody [⟨"Liquidctl".toList, some "abc".toList, none⟩]⟩).1 = false →
      get_cached_device_uid (init_cached_device_uid ⟨true, true, []⟩
        ⟨true, 200, renderBody [⟨"Liquidctl".toList, some "abc".toList, none⟩]⟩).2 = []) :=
  uid_discovery_memory_roundtrip ⟨true, true, []⟩ ⟨true, true, []⟩
    ⟨true, 200, renderBody [⟨"Liquidctl".toList, some "abc".toList, none⟩]⟩
    rfl rfl rfl rfl rfl rfl

/-! ## C9: the cached-uid invariant -/

/-- C9: `get_cached_device_uid` always yields a (never-NULL) string of
at most 127 characters in every state reachable by API calls from
process start; it is empty at process start; and immediately after a
successful `init_cached_device_uid` it is non-empty and equals exactly
the uid the device-list parser extracted from the live response. -/
theorem cached_uid_invariant :
    (∀ ops : List CCOp, (get_cached_device_uid (ccRun ops)).length ≤ 127) ∧
    get_cached_device_uid initialCCState = [] ∧
    (∀ (st : CCState) (resp : DevicesResponse),
      (init_cached_device_uid st resp).1 = true →
        get_cached_device_uid (init_cached_device_uid st resp).2 ≠ [] ∧
        parse_device_fields_uid resp =
          some (get_cached_device_uid (init_cached_device_uid st resp).2)) := by
  refine ⟨?_, rfl, ?_⟩
  · intro ops
    have hfold : ∀ (l : List CCOp) (st : CCState), st.cachedDeviceUid.length ≤ 127 →
        (l.foldl ccStep st).cachedDeviceUid.length ≤ 127 := by
      intro l
      induction l with
      | nil => intro st h; exact h
      | cons op l ihl =>
        intro st h
        exact ihl _ (ccStep_uid_length h op)
    exact hfold ops initialCCState (by rw [initialCCState]; exact Nat.zero_le _)
  · intro st resp hsucc
    cases hg : (!st.curlHandle || !st.sessionInit) with
    | true =>
      rw [init_cached_uid_guard st resp hg] at hsucc
      exact Bool.noConfusion hsucc
    | false =>
      cases hp : parse_device_fields_uid resp with
      | none =>
        rw [init_cached_uid_parse_none st resp hg hp] at hsucc
        exact Bool.noConfusion hsucc
      | some u =>
        rw [init_cached_uid_parse_some st resp u hg hp] at hsucc ⊢
        cases hu : u.isEmpty with
        | true =>
          rw [hu] at hsucc
          exact Bool.noConfusion hsucc
        | false =>
          refine ⟨?_, rfl⟩
          show u ≠ []
          intro he
          rw [he] at hu
          cases hu

/-- C9 witness: a concrete run (session login, then discovery). -/
theorem cached_uid_invariant_witness :
    (get_cached_device_uid (ccRun [CCOp.opInitSession true ⟨true, 200⟩,
      CCOp.opInitCachedUid ⟨true, 200,
        renderBody [⟨"Liquidctl".toList, some "abc".toList, none⟩]⟩])).length ≤ 127 :=
  cached_uid_invariant.1 _

/-! ## C10: upload guard -/

/-- C10: whenever the curl handle is NULL, the image path or device UID
argument is NULL, or the session is not initialized, `send_image_to_lcd`
returns failure with zero HTTP requests issued and the session state
unchanged. -/
theorem send_guard_no_request (st : CCState) (imagePath deviceUid : Option (List Char))
    (put : HttpOutcome)
    (h : st.curlHandle = false ∨ imagePath = none ∨ deviceUid = none ∨
      st.sessionInit = false) :
    send_image_to_lcd st imagePath deviceUid put = (st, false, 0) := by
  rcases h with h | h | h | h <;> simp [send_image_to_lcd, h]

/-- C10 witness: fresh state (no handle, no session), NULL arguments. -/
theorem send_guard_no_request_witness :
    send_image_to_lcd initialCCState none none ⟨true, 200⟩ = (initialCCState, false, 0) :=
  send_guard_no_request initialCCState none none ⟨true, 200⟩ (Or.inl rfl)

end CoolerDash
